import Mathlib

/-!
Verification of the Talk4Finance PowerBI subsystem
(query normalizer, executor retry logic, result formatter,
example matcher, auth token cache, entity-resolution bound).

Strings are modelled as `List Char`; Python `str.strip`, `str.lower`,
`str.replace` and the concrete regular expressions used by the source are
implemented directly on character lists.  Numbers occurring in formatted
output are modelled as exact rationals; Python's fixed-point `format`
rounding is modelled as round-half-to-even on the exact value.
-/

namespace Talk4Finance

/-- Python's ASCII whitespace class (`\s` over the inputs in scope). -/
def pySpace (c : Char) : Bool :=
  c == ' ' || c == '\t' || c == '\n' || c == '\r' || c == '\x0b' || c == '\x0c'

/-- ASCII lower-casing, as `str.lower` acts on the ASCII letters. -/
def lowChar (c : Char) : Char :=
  if 'A' ≤ c && c ≤ 'Z' then Char.ofNat (c.toNat + 32) else c

/-- The regex class `[A-Za-z]`. -/
def isAsciiAlpha (c : Char) : Bool :=
  ('A' ≤ c && c ≤ 'Z') || ('a' ≤ c && c ≤ 'z')

/-- The regex class `\d`. -/
def isDigitCh (c : Char) : Bool := '0' ≤ c && c ≤ '9'

/-- `str.lstrip` (whitespace). -/
def stripL (l : List Char) : List Char := l.dropWhile pySpace

/-- `str.rstrip` (whitespace). -/
def stripR (l : List Char) : List Char := (stripL l.reverse).reverse

/-- Python `str.strip()`. -/
def pyStrip (l : List Char) : List Char := stripR (stripL l)

/-- Lower-case a whole string. -/
def lowStr (l : List Char) : List Char := l.map lowChar

/-- `s.startswith p` as a boolean. -/
def isPref : List Char → List Char → Bool
  | [], _ => true
  | _ :: _, [] => false
  | p :: ps, c :: cs => p == c && isPref ps cs

/-- Case-insensitive literal match: if the lowering of `s` starts with the
(lower-case) pattern, return the remainder of `s`. -/
def matchCI : List Char → List Char → Option (List Char)
  | [], s => some s
  | _ :: _, [] => none
  | p :: ps, c :: cs => if lowChar c == p then matchCI ps cs else none

/-- Greedy `X+` for a character class: requires at least one `p`-character and
consumes the maximal run, returning the remainder. -/
def dropRun1 (p : Char → Bool) : List Char → Option (List Char)
  | [] => none
  | c :: cs => if p c then some (cs.dropWhile p) else none

def evalKw : List Char := ['e', 'v', 'a', 'l', 'u', 'a', 't', 'e']

def evalUp : List Char := ['E', 'V', 'A', 'L', 'U', 'A', 'T', 'E']

/-- Case-insensitive substring test (`pat` given lower-case). -/
def containsCI (pat : List Char) : List Char → Bool
  | [] => (matchCI pat []).isSome
  | c :: cs => (matchCI pat (c :: cs)).isSome || containsCI pat cs

/-- Number of (possibly overlapping) case-insensitive occurrences of `pat`. -/
def countCI (pat : List Char) : List Char → Nat
  | [] => if (matchCI pat []).isSome then 1 else 0
  | c :: cs => (if (matchCI pat (c :: cs)).isSome then 1 else 0) + countCI pat cs

/-- One attempted match of `EVALUATE\s+[A-Za-z]+\s+` (case-insensitive) at the
head of the string; returns the remainder after the match. -/
def tryLangTag (s : List Char) : Option (List Char) :=
  (matchCI evalKw s).bind fun r1 =>
    (dropRun1 pySpace r1).bind fun r2 =>
      (dropRun1 isAsciiAlpha r2).bind fun r3 =>
        dropRun1 pySpace r3

/-- `re.sub(r'EVALUATE\s+[A-Za-z]+\s+', 'EVALUATE ', q, flags=IGNORECASE)`:
left-to-right scan, each match replaced by literal `EVALUATE `, scanning
resuming after the match.  Fuelled so the recursion is structural; fuel
`s.length` always suffices. -/
def subLangAux : Nat → List Char → List Char
  | 0, s => s
  | _ + 1, [] => []
  | n + 1, c :: cs =>
    match tryLangTag (c :: cs) with
    | some rem => evalUp ++ ' ' :: subLangAux n rem
    | none => c :: subLangAux n cs

def subLang (s : List Char) : List Char := subLangAux s.length s

/-- Does `EVALUATE\s+EVALUATE` (case-insensitive) match at the head? -/
def nestedHere (s : List Char) : Bool :=
  (((matchCI evalKw s).bind (dropRun1 pySpace)).map
    fun r2 => (matchCI evalKw r2).isSome).getD false

/-- `re.search(r'EVALUATE\s+EVALUATE', q, flags=IGNORECASE)` as a boolean. -/
def hasNested : List Char → Bool
  | [] => false
  | c :: cs => nestedHere (c :: cs) || hasNested cs

/-- `re.sub(r'EVALUATE\s+', '', q, count=1, flags=IGNORECASE)`. -/
def dropFirstEval : List Char → List Char
  | [] => []
  | c :: cs =>
    match matchCI evalKw (c :: cs) with
    | some r1 =>
      match dropRun1 pySpace r1 with
      | some rem => rem
      | none => c :: dropFirstEval cs
    | none => c :: dropFirstEval cs

/-- `q.replace(chr(34)*2, chr(34))`: left-to-right, non-overlapping. -/
def squashQQ : List Char → List Char
  | [] => []
  | [c] => [c]
  | c1 :: c2 :: cs =>
    if c1 = '"' ∧ c2 = '"' then '"' :: squashQQ cs
    else c1 :: squashQQ (c2 :: cs)

/-- Does the string contain two adjacent double-quote characters? -/
def hasQQ : List Char → Bool
  | [] => false
  | [_] => false
  | c1 :: c2 :: cs => (c1 == '"' && c2 == '"') || hasQQ (c2 :: cs)

/-- `q.replace(tab, four spaces)`. -/
def expandTabs : List Char → List Char
  | [] => []
  | c :: cs =>
    if c = '\t' then ' ' :: ' ' :: ' ' :: ' ' :: expandTabs cs
    else c :: expandTabs cs

/-- `q.find(newline)`, `none` for Python's `-1`. -/
def findNL : List Char → Option Nat
  | [] => none
  | c :: cs => if c == '\n' then some 0 else (findNL cs).map (· + 1)

def fence3 : List Char := ['`', '`', '`']

/-- `q.endswith(triple backtick)`. -/
def endsWithFence (l : List Char) : Bool := isPref fence3 l.reverse

/-- The body of `_clean_query`'s opening-fence branch, given the index `i` of
the first newline (`i = q1.find(newline)`). -/
def cleanFenceOpen (q1 : List Char) (i : Nat) : List Char :=
  if 0 < i then
    let qa := pyStrip (q1.drop i)
    if endsWithFence qa then pyStrip (qa.take (qa.length - 3)) else qa
  else q1

/-- `_clean_query` step 2: remove triple backticks and language identifiers. -/
def cleanFence (q1 : List Char) : List Char :=
  if isPref fence3 q1 then (findNL q1).elim q1 (cleanFenceOpen q1)
  else if endsWithFence q1 then pyStrip (q1.take (q1.length - 3))
  else q1

/-- `_clean_query` step 3: remove one layer of surrounding quotes. -/
def cleanQuote (q2 : List Char) : List Char :=
  if (q2.head? == some '"' && q2.getLast? == some '"')
      || (q2.head? == some '\'' && q2.getLast? == some '\'') then
    pyStrip (q2.drop 1).dropLast
  else q2

/-- `_clean_query` step 5: drop the first `EVALUATE` if two are nested. -/
def dedupEval (q4 : List Char) : List Char :=
  if hasNested q4 then dropFirstEval q4 else q4

/-- `_clean_query` step 6: ensure the query starts with `EVALUATE`. -/
def ensureEval (q5 : List Char) : List Char :=
  if (matchCI evalKw q5).isSome then q5 else evalUp ++ '\n' :: q5

/-- `QueryPowerBITool._clean_query`, step for step: strip, remove fences,
remove one quote layer, delete `EVALUATE <tag> ` patterns, deduplicate a
nested `EVALUATE`, prepend `EVALUATE` if absent, squash doubled quotes,
expand tabs. -/
def cleanQuery (q0 : List Char) : List Char :=
  expandTabs (squashQQ (ensureEval (dedupEval (subLang (cleanQuote (cleanFence (pyStrip q0)))))))

/-- `_clean_query` on `String`. -/
def cleanQueryS (s : String) : String := ⟨cleanQuery s.data⟩

/-- `"EVALUATE "` — the canonical keyword-plus-space head of a clean query. -/
def evalSp : List Char := evalUp ++ [' ']

/-- A query wrapped in a fenced code block with (possibly empty) language tag:
triple backtick, tag, newline, query, newline, triple backtick. -/
def fenceWrap (tag q : List Char) : List Char :=
  (fence3 ++ tag) ++ ('\n' :: (q ++ ('\n' :: fence3)))

/-- A query wrapped in one layer of surrounding quotes. -/
def quoteWrap (qc : Char) (q : List Char) : List Char := qc :: (q ++ [qc])

/-- A language tag misplaced after the `EVALUATE` keyword:
`EVALUATE <tag> <body>`. -/
def misTagWrap (tag body : List Char) : List Char := evalSp ++ (tag ++ (' ' :: body))

/-! ## Query executor and auth manager (`powerbi_helper.py`) -/

/-- A scalar cell value (string, number or null), as stored in a Query
Record.  Numbers are modelled as exact rationals. -/
inductive PValue
  | null
  | num (q : ℚ)
  | str (s : String)
  deriving DecidableEq, Repr

/-- The engine's wire format `results[0].tables[0]`: column metadata (each
column has an optional `name`) plus row arrays. -/
structure WireTable where
  columns : List (Option String)
  rows : List (List PValue)
  deriving DecidableEq

/-- The response-body shapes distinguished by `execute_query`. -/
inductive RespBody
  | withTables (t : WireTable)
  | withRows (rows : List (List PValue))
  | otherResult
  | noResults
  deriving DecidableEq

/-- One HTTP response from the engine. -/
structure HttpResp where
  status : Nat
  text : String
  body : RespBody
  deriving DecidableEq

/-- `PowerBIHelper.execute_query_with_retry`, parametrised by the number of
retries remaining.  `resp n` is the engine's answer to the `n`-th request
(0-based); `refreshOk` says whether a forced token refresh succeeds.
Returns the final response, the number of requests sent, and the number of
token-refresh attempts. -/
def retryLoop (resp : Nat → HttpResp) (refreshOk : Bool) :
    Nat → Nat → Nat → HttpResp × Nat × Nat
  | 0, sent, refs => (resp sent, sent + 1, refs)
  | remaining + 1, sent, refs =>
    let r := resp sent
    if r.status = 401 then
      if refreshOk then retryLoop resp refreshOk remaining (sent + 1) (refs + 1)
      else (r, sent + 1, refs + 1)
    else (r, sent + 1, refs)

/-- `execute_query_with_retry` with its default `max_retries=1`. -/
def executeQueryWithRetry (resp : Nat → HttpResp) (refreshOk : Bool) :
    HttpResp × Nat × Nat :=
  retryLoop resp refreshOk 1 0 0

/-- Outcome of `execute_query`: an `error` dict, reshaped named-column
records, raw row arrays (no column metadata), or the single-query-result
fallback. -/
inductive ExecOutcome
  | error (msg : String)
  | records (rs : List (List (String × PValue)))
  | rawRows (rows : List (List PValue))
  | otherSingleton
  deriving DecidableEq

/-- Python `column.get("name", f"Column{i+1}")`. -/
def colName (i : Nat) (c : Option String) : String :=
  c.getD ("Column" ++ toString (i + 1))

/-- Python dict insertion: overwrite in place when the key exists, append
otherwise. -/
def dictInsert {α : Type} (d : List (String × α)) (k : String) (v : α) :
    List (String × α) :=
  if d.any (fun p => p.1 == k) then
    d.map (fun p => if p.1 == k then (k, v) else p)
  else d ++ [(k, v)]

/-- `execute_query`'s row reshaping: one record built from the column list
and one row array; a missing trailing cell becomes null
(`row_dict[column_name] = row[i] if i < len(row) else None`). -/
def buildRow (columns : List (Option String)) (row : List PValue) :
    List (String × PValue) :=
  columns.enum.foldl
    (fun d ic => dictInsert d (colName ic.1 ic.2) (row.getD ic.1 PValue.null)) []

/-- `PowerBIHelper.execute_query`. -/
def executeQuery (resp : Nat → HttpResp) (refreshOk : Bool) : ExecOutcome :=
  let r := (executeQueryWithRetry resp refreshOk).1
  if r.status ≠ 200 then
    .error ("Failed to execute query: " ++ toString r.status ++ " - " ++ r.text)
  else
    match r.body with
    | .withTables t =>
      if t.columns = [] then .rawRows t.rows
      else .records (t.rows.map (buildRow t.columns))
    | .withRows rows => .rawRows rows
    | .otherResult => .otherSingleton
    | .noResults => .records []

/-- `PowerBIAuthManager` cached-credential state. -/
structure AuthState where
  token : Option String
  expiresAt : Option Int
  deriving DecidableEq

/-- Result of one credential acquisition from the identity provider. -/
inductive AcquireResult
  | ok (tok : String) (expiresOn : Option Int)
  | fail
  deriving DecidableEq

/-- Is the cached token served from cache at time `now`?  Requires a token,
a tracked expiry, and `now` strictly inside the 5-minute buffer (times in
seconds, so 5 minutes = 300). -/
def cacheValid (st : AuthState) (now : Int) : Bool :=
  match st.token, st.expiresAt with
  | some _, some e => decide (now < e - 300)
  | _, _ => false

/-- `PowerBIAuthManager.get_token`: returns the token (`none` models the
re-raised acquisition exception), the updated cache state, and whether an
acquisition was attempted.  The default lifetime when the provider reports
no expiry is 50 minutes (3000 s). -/
def getToken (st : AuthState) (now : Int) (force : Bool) (acq : AcquireResult) :
    Option String × AuthState × Bool :=
  if !force && cacheValid st now then (st.token, st, false)
  else
    match acq with
    | .ok tok expOn => (some tok, ⟨some tok, some (expOn.getD (now + 3000))⟩, true)
    | .fail => (none, ⟨none, none⟩, true)

/-! ## Numeric rendering (Python format-spec semantics on exact rationals)

Python formats floats; values reaching the formatter come from JSON numbers,
which are finite decimals, so exact rational arithmetic with
round-half-to-even reproduces `format(value, '.2f')` etc. for them — except
on exact decimal ties (a 5 in the first dropped place), where Python rounds
the nearest binary double instead of the decimal value.  No claim in scope
evaluates the formatter at such a tie. -/

/-- Rational multiplication, phrased through `mkRat` so the kernel can
evaluate it on literals (`Rat.mul` is `@[irreducible]`); equal to `*` by
`qMul_eq`. -/
def qMul (a b : ℚ) : ℚ := mkRat (a.num * b.num) (a.den * b.den)

/-- Rational division through `Rat.divInt`; equal to `/` by `qDiv_eq`. -/
def qDiv (a b : ℚ) : ℚ := Rat.divInt (a.num * (b.den : Int)) (b.num * (a.den : Int))

/-- Rational addition through `mkRat`; equal to `+` by `qAdd_eq`. -/
def qAdd (a b : ℚ) : ℚ := mkRat (a.num * b.den + b.num * a.den) (a.den * b.den)

/-- Rational subtraction through `mkRat`; equal to `-` by `qSub_eq`. -/
def qSub (a b : ℚ) : ℚ := mkRat (a.num * b.den - b.num * a.den) (a.den * b.den)

/-- Round half to even. -/
def roundHE (x : ℚ) : ℤ :=
  let f := Rat.floor x
  let r := qSub x (f : ℚ)
  if r < mkRat 1 2 then f
  else if mkRat 1 2 < r then f + 1
  else if f % 2 = 0 then f else f + 1

/-- Insert a comma before every third digit (input reversed). -/
def group3Aux : Nat → List Char → List Char
  | _, [] => []
  | k, c :: cs =>
    if k % 3 = 0 ∧ k ≠ 0 then ',' :: c :: group3Aux (k + 1) cs
    else c :: group3Aux (k + 1) cs

/-- Thousands grouping of a digit string, Python `{:,}` style. -/
def group3 (s : List Char) : List Char := (group3Aux 0 s.reverse).reverse

/-- Python `format(x, '.{d}f')`: fixed-point with `d` decimals, half-even. -/
def fmtFixed (d : Nat) (x : ℚ) : String :=
  let n := (roundHE (qMul |x| ((10 ^ d : ℕ) : ℚ))).toNat
  let ip := n / 10 ^ d
  let fp := n % 10 ^ d
  let fpStr := toString fp
  (if x < 0 then "-" else "") ++ toString ip
    ++ (if d = 0 then ""
        else "." ++ (List.replicate (d - fpStr.length) '0').asString ++ fpStr)

/-- Python `format(x, '.2f')`. -/
def fmt2 (x : ℚ) : String := fmtFixed 2 x

/-- Python `format(x, '.1f')`. -/
def fmt1 (x : ℚ) : String := fmtFixed 1 x

/-- Python `format(x, ',.2f')`: like `fmt2` with thousands grouping. -/
def fmtSep2 (x : ℚ) : String :=
  let n := (roundHE (qMul |x| 100)).toNat
  let ip := n / 100
  let fp := n % 100
  let fpStr := toString fp
  (if x < 0 then "-" else "") ++ (group3 (toString ip).data).asString
    ++ "." ++ (List.replicate (2 - fpStr.length) '0').asString ++ fpStr

/-- Python `format(x, '.0%')`: percent with zero decimals. -/
def fmtPct0 (x : ℚ) : String := fmtFixed 0 (qMul x 100) ++ "%"

/-- Smallest number of decimal digits that makes `q * 10^k` integral
(bounded search; JSON decimals always terminate). -/
def decDigits : ℚ → Nat → Option Nat
  | q, 0 => if q.den = 1 then some 0 else none
  | q, fuel + 1 => if q.den = 1 then some 0 else (decDigits (qMul q 10) fuel).map (· + 1)

/-- Python `str(number)` for the numbers in scope: integers render without a
point, terminating decimals with their exact digits (`str(float)`'s shortest
round-trip repr agrees on such values); non-terminating rationals (which do
not arise from the JSON wire format) fall back to `num/den`. -/
def pyStrNum (q : ℚ) : String :=
  match decDigits q 50 with
  | some 0 => toString q.num
  | some k =>
    let n := (qMul |q| ((10 ^ k : ℕ) : ℚ)).num.toNat
    let ip := n / 10 ^ k
    let fp := n % 10 ^ k
    let fpStr := toString fp
    (if q < 0 then "-" else "") ++ toString ip
      ++ "." ++ (List.replicate (k - fpStr.length) '0').asString ++ fpStr
  | none => toString q.num ++ "/" ++ toString q.den

/-- Python `str(value)`. -/
def pyStr (v : PValue) : String :=
  match v with
  | .null => "None"
  | .str s => s
  | .num q => pyStrNum q

/-! ## `QueryPowerBITool._format_financial_value` -/

/-- `value.replace(',','').replace('€','').replace('%','').strip()`. -/
def finCleanChars (s : List Char) : List Char :=
  pyStrip (s.filter (fun c => ¬(c = ',' ∨ c = '€' ∨ c = '%')))

/-- Accumulate decimal digits. -/
def digitsVal (l : List Char) : Nat :=
  l.foldl (fun a c => a * 10 + (c.toNat - '0'.toNat)) 0

/-- Python `float(s)` restricted to `[+-]? digits [. digits]` forms (the
exponent, underscore and inf/nan spellings accepted by `float` do not occur
in the cleaned numeric strings in scope). -/
def parseFloat (s : List Char) : Option ℚ :=
  let (sign, rest) : ℚ × List Char :=
    match s with
    | '+' :: r => (1, r)
    | '-' :: r => (-1, r)
    | r => (1, r)
  let ipart := rest.takeWhile isDigitCh
  let rest2 := rest.dropWhile isDigitCh
  match rest2 with
  | [] => if ipart = [] then none else some (qMul sign (digitsVal ipart))
  | '.' :: fr =>
    let fpart := fr.takeWhile isDigitCh
    let rest3 := fr.dropWhile isDigitCh
    if rest3 = [] ∧ (ipart ≠ [] ∨ fpart ≠ []) then
      some (qMul sign (qAdd (digitsVal ipart : ℚ)
        (qDiv (digitsVal fpart : ℚ) ((10 ^ fpart.length : ℕ) : ℚ))))
    else none
  | _ => none

/-- The numeric branch of `_format_financial_value`: percentages as
`{v:.1f}%`; otherwise the five absolute-value bands of the source (millions
with `M`, thousands with separators, hundreds, units, sub-unit — the last
three all render `€{v:.2f}`). -/
def renderNum (q : ℚ) (isPct : Bool) : String :=
  if isPct then fmt1 q ++ "%"
  else if |q| ≥ 1000000 then "€" ++ fmt2 (qDiv q 1000000) ++ "M"
  else if |q| ≥ 1000 then "€" ++ fmtSep2 q
  else if |q| ≥ 100 then "€" ++ fmt2 q
  else if |q| ≥ 1 then "€" ++ fmt2 q
  else "€" ++ fmt2 q

/-- `QueryPowerBITool._format_financial_value(value, is_percentage)`.
`None` renders `N/A`; strings are cleaned of `,`/`€`/`%` and parsed — empty
or null-like cleaned strings render `N/A`, unparseable strings are returned
unchanged (`str(value)` in the `except` arm). -/
def formatFinancialValue (v : PValue) (isPct : Bool) : String :=
  match v with
  | .null => "N/A"
  | .num q => renderNum q isPct
  | .str s =>
    let c := finCleanChars s.data
    if c = [] ∨ lowStr c ∈ [['n','u','l','l'], ['n','o','n','e'], ['n','/','a']] then "N/A"
    else
      match parseFloat c with
      | some q => renderNum q isPct
      | none => s

/-- Modelled from the spec: the §4.5 numeric rendering contract for the
financial class, with the thresholds read over the absolute value (the
amendment the code forces): `≥ 1e6` → `€{v/1e6:.2f}M`, `≥ 1e3` →
`€{v:,.2f}`, otherwise `€{v:.2f}`. -/
def specFinancialRender (q : ℚ) : String :=
  if |q| ≥ 1000000 then "€" ++ fmt2 (q / 1000000) ++ "M"
  else if |q| ≥ 1000 then "€" ++ fmtSep2 q
  else "€" ++ fmt2 q

/-! ## Result formatter (`_format_results` and friends) -/

/-- A Query Record: ordered column-name/value pairs. -/
abbrev QRecord := List (String × PValue)

/-- Python `row.get(col, dflt)`. -/
def rget (r : QRecord) (k : String) (dflt : PValue) : PValue :=
  match r.find? (fun p => p.1 == k) with
  | some p => p.2
  | none => dflt

/-- `list(row.keys())`. -/
def rkeys (r : QRecord) : List String := r.map Prod.fst

/-- Case-sensitive substring test (Python `pat in hay`). -/
def containsSub (pat : List Char) : List Char → Bool
  | [] => isPref pat []
  | c :: cs => isPref pat (c :: cs) || containsSub pat cs

def strContains (hay pat : String) : Bool := containsSub pat.data hay.data

def strEndsWith (hay pat : String) : Bool := isPref pat.data.reverse hay.data.reverse

def lowS (s : String) : String := ⟨lowStr s.data⟩

/-- `_detect_financial_columns`'s financial keyword list. -/
def financialKeywords : List String :=
  ["revenue", "revenu", "ca", "chiffre", "affaires",
   "margin", "marge", "mb", "gross", "brute",
   "budget", "actual", "réel", "reel",
   "cost", "coût", "cout", "charge", "expense",
   "profit", "bénéfice", "benefice", "résultat", "resultat", "rex",
   "montant", "amount", "value", "valeur",
   "total", "sum", "somme",
   "difference", "différence", "variance", "écart", "ecart",
   "price", "prix", "tarif"]

/-- `_detect_financial_columns`'s percentage keyword list. -/
def percentageKeywords : List String :=
  ["percentage", "pourcentage", "percent", "pct", "%",
   "rate", "taux", "ratio", "change", "growth", "croissance",
   "variation", "evolution", "évolution"]

/-- The percentage-column test of `_detect_financial_columns`. -/
def isPercCol (col : String) : Bool :=
  let kl := lowS col
  percentageKeywords.any (fun k => strContains kl k)
    || strEndsWith kl "(%)" || strEndsWith kl "%"
    || strContains kl "change" || strContains kl "growth" || strContains kl "croissance"

/-- The financial-column test of `_detect_financial_columns`. -/
def isFinCol (col : String) : Bool :=
  financialKeywords.any (fun k => strContains (lowS col) k)

/-- `_detect_financial_columns`, financial part (percentage wins on the
`elif`). -/
def detectFin (columns : List String) : List String :=
  columns.filter (fun c => !isPercCol c && isFinCol c)

/-- `_detect_financial_columns`, percentage part. -/
def detectPerc (columns : List String) : List String :=
  columns.filter isPercCol

/-- Non-financial cell rendering in the table/time-series loops: numbers as
`{v:,.2f}`, `None` as `N/A`, strings via `str`. -/
def plainCell (v : PValue) : String :=
  match v with
  | .num q => fmtSep2 q
  | .null => "N/A"
  | .str s => s

/-- `_format_table_enhanced`. -/
def formatTableEnhanced (rs : List QRecord) : String :=
  let columns := rkeys (rs.headD [])
  let fin := detectFin columns
  let pct := detectPerc columns
  "Query Results:\n\n" ++ String.join (rs.enum.map (fun ir =>
    "• Row " ++ toString (ir.1 + 1) ++ ":\n"
    ++ String.join (columns.map (fun col =>
        let value := rget ir.2 col (.str "N/A")
        let formatted :=
          if pct.contains col then formatFinancialValue value true
          else if fin.contains col then
            let f0 := formatFinancialValue value false
            match value with
            | .num q =>
              if strContains (lowS col) "variance" then
                if 0 < q then "+" ++ f0 else f0
              else f0
            | _ => f0
          else plainCell value
        "  - " ++ col ++ ": " ++ formatted ++ "\n"))
    ++ "\n"))

/-- The single-scalar branch of `_format_results` with its own (shorter)
keyword lists. -/
def scalarPercKeywords : List String :=
  ["percentage", "pourcentage", "percent", "pct", "%", "change", "growth", "croissance"]

def scalarFinKeywords : List String :=
  ["revenue", "revenu", "ca", "margin", "marge", "budget", "cost", "coût", "montant", "total"]

/-- Case 1 of `_format_results`: a single one-field record. -/
def formatScalar (r0 : QRecord) : String :=
  let kv := r0.headD ("", PValue.null)
  let k := kv.1
  let v := kv.2
  let kl := lowS k
  let isPct := scalarPercKeywords.any (fun w => strContains kl w)
    || strEndsWith kl "(%)" || strEndsWith kl "%"
  let isFin := scalarFinKeywords.any (fun w => strContains kl w)
  let formatted :=
    if isPct then formatFinancialValue v true
    else if isFin then formatFinancialValue v false
    else
      match v with
      | .num _ => formatFinancialValue v false
      | _ => pyStr v
  k ++ ": " ++ formatted

/-- The renderer's (wider) time-column vocabulary. -/
def timeTerms : List String :=
  ["mois", "date", "month", "year", "année", "trimestre", "semestre", "jour", "day"]

/-- `_format_time_series_enhanced`: per-period bullet list with a trend
arrow per financial column comparing each numeric value to that column's
previous one. -/
def formatTimeSeriesEnhanced (rs : List QRecord) : String :=
  let allColumns := rkeys (rs.headD [])
  let timeCols := allColumns.filter (fun c => timeTerms.any (fun t => strContains (lowS c) t))
  let timeCol := timeCols.headD (allColumns.headD "")
  let dataColumns := allColumns.filter (fun c => c ≠ timeCol)
  let fin := detectFin dataColumns
  let pct := detectPerc dataColumns
  let step := fun (acc : String × List (String × ℚ)) (row : QRecord) =>
    let rowOut := dataColumns.foldl
      (fun (st : String × List (String × ℚ)) col =>
        let val := rget row col PValue.null
        let formatted :=
          if pct.contains col then formatFinancialValue val true
          else if fin.contains col then formatFinancialValue val false
          else plainCell val
        let trendPrev :=
          match val with
          | .num q =>
            if fin.contains col then
              match st.2.find? (fun (p : String × ℚ) => p.1 == col) with
              | some p =>
                ((if p.2 < q then " ↗️"
                  else if q < p.2 then " ↘️"
                  else " ➡️"), dictInsert st.2 col q)
              | none => ("", dictInsert st.2 col q)
            else ("", st.2)
          | _ => ("", st.2)
        (st.1 ++ "  - " ++ col ++ ": " ++ formatted ++ trendPrev.1 ++ "\n", trendPrev.2))
      ("", acc.2)
    (acc.1 ++ "• " ++ pyStr (rget row timeCol PValue.null) ++ ":\n" ++ rowOut.1 ++ "\n",
     rowOut.2)
  "Time Series Analysis:\n\n" ++ (rs.foldl step ("", [])).1

/-- Lexicographic string comparison by code point (Python `<`). -/
def strLt : List Char → List Char → Bool
  | [], [] => false
  | [], _ :: _ => true
  | _ :: _, [] => false
  | a :: as, b :: bs => if a < b then true else if b < a then false else strLt as bs

/-- Stable descending insertion by a strict greater-than test. -/
def insertDescBy {α : Type} (gt : α → α → Bool) (x : α) : List α → List α
  | [] => [x]
  | y :: ys => if gt x y then x :: y :: ys else y :: insertDescBy gt x ys

/-- Stable descending sort (insertion sort — agrees with Python's stable
`sorted(..., reverse=True)`). -/
def sortDescBy {α : Type} (gt : α → α → Bool) (l : List α) : List α :=
  l.foldl (fun acc x => insertDescBy gt x acc) []

/-- The sort key `x.get(sort_col, 0) if x.get(sort_col) is not None else 0`,
split by runtime type: number (None/missing as 0) or string. -/
def buKey (sortCol : String) (r : QRecord) : Sum ℚ String :=
  match rget r sortCol (.num 0) with
  | .null => .inl 0
  | .num q => .inl q
  | .str s => .inr s

/-- `_format_bu_comparison`.  Python's `sorted` raises on a mixed
number/string key list; the bare `except` then keeps the original order —
modelled by sorting only an all-number or all-string key list. -/
def formatBuComparison (rs : List QRecord) : String :=
  let columns := rkeys (rs.headD [])
  let isBu := fun c => strContains (lowS c) "bu" || strContains (lowS c) "business"
  let isRev := fun c => !isBu c
    && (strContains (lowS c) "revenue" || strContains (lowS c) "ca"
        || strContains (lowS c) "revenu")
  let isBud := fun c => !isBu c && !isRev c && strContains (lowS c) "budget"
  let isVar := fun c => !isBu c && !isRev c && !isBud c
    && (strContains (lowS c) "variance" || strContains (lowS c) "difference"
        || strContains (lowS c) "dif")
  let buCol := (columns.filter isBu).getLast?
  let revenueCols := columns.filter isRev
  let varianceCols := columns.filter isVar
  let sortCol := varianceCols.headD (revenueCols.headD (columns.getD 1 ""))
  let gtNum := fun r1 r2 =>
    match buKey sortCol r1, buKey sortCol r2 with
    | .inl x, .inl y => decide (y < x)
    | _, _ => false
  let gtStr := fun r1 r2 =>
    match buKey sortCol r1, buKey sortCol r2 with
    | .inr x, .inr y => strLt y.data x.data
    | _, _ => false
  let sortedRs :=
    if rs.all (fun r => match buKey sortCol r with | .inl _ => true | .inr _ => false) then
      sortDescBy gtNum rs
    else if rs.all (fun r => match buKey sortCol r with | .inr _ => true | .inl _ => false) then
      sortDescBy gtStr rs
    else rs
  "Business Unit Performance Analysis:\n\n"
    ++ String.join (sortedRs.enum.map (fun ir =>
      let buName : PValue :=
        match buCol with
        | some bc => rget ir.2 bc (.str ("BU " ++ toString (ir.1 + 1)))
        | none => .str ("BU " ++ toString (ir.1 + 1))
      if buName = .null ∨ buName = .str "" ∨ buName = .num 0 ∨ buName = .str "None" then ""
      else
        "• **" ++ pyStr buName ++ "**:\n"
        ++ String.join (columns.map (fun col =>
            if buCol = some col then ""
            else
              let value := rget ir.2 col (.str "N/A")
              let formatted :=
                match value with
                | .num q =>
                  if ["revenue", "budget", "variance", "ca", "mb", "montant"].any
                      (fun w => strContains (lowS col) w) then
                    if strContains (lowS col) "variance" || strContains (lowS col) "dif" then
                      if 0 < q then "+" ++ formatFinancialValue value false
                      else formatFinancialValue value false
                    else formatFinancialValue value false
                  else fmtSep2 q
                | .null => "N/A"
                | .str s => s
              "  - " ++ col ++ ": " ++ formatted ++ "\n"))
        ++ "\n"))

/-- The time-series classification vocabulary of `_format_results` case 2 —
narrower than the renderer's `timeTerms`. -/
def tsClassTerms : List String := ["mois", "date", "month", "year", "année"]

/-- The entity/comparison vocabulary of `_format_results` case 3. -/
def buClassTerms : List String := ["bu", "business", "unit", "variance", "budget"]

/-- Input to `_format_results`: an error dict or a records list.  (The raw
row-array shapes the executor can also produce crash this formatter in
Python — `list` has no `.keys()` — and are out of scope.) -/
inductive FmtInput
  | err (msg : String)
  | results (rs : List QRecord)

/-- `QueryPowerBITool._format_results`: error passthrough, then the four
shape cases checked in order, and the empty-result message. -/
def formatResults (input : FmtInput) : String :=
  match input with
  | .err m => "Error executing query: " ++ m
  | .results rs =>
    if 0 < rs.length then
      if rs.length = 1 ∧ (rs.headD []).length = 1 then
        formatScalar (rs.headD [])
      else if 1 < rs.length ∧ (rkeys (rs.headD [])).any
          (fun col => tsClassTerms.any (fun t => strContains (lowS col) t)) then
        formatTimeSeriesEnhanced rs
      else if 1 < rs.length ∧ (rkeys (rs.headD [])).any
          (fun col => buClassTerms.any (fun t => strContains (lowS col) t)) then
        formatBuComparison rs
      else formatTableEnhanced rs
    else "Query returned no results."

/-! ## Example matcher (`match_query_example_tool.py`) -/

/-- One entry of the curated example library. -/
structure QueryExample where
  question : String
  query : String
  deriving DecidableEq

/-- The `DAX_EXAMPLES` library of `query_examples.py` (all 7 entries, verbatim). -/
def DAX_EXAMPLES : List QueryExample := [
  ⟨"give me the total revenu of the product P231 for the year 2024?",
   "EVALUATE\nSUMMARIZECOLUMNS(\n    MAPPING_PRODUIT[Code Produit],\n    FILTER(\n        VALUES(GL[EXERCICE]),\n        GL[EXERCICE] = 2024\n    ),\n    FILTER(\n        VALUES(GL[PRODUIT]),\n        GL[PRODUIT] = \"P231\"\n    ),\n    \"Total Revenue\", \n    SUM(GL[MONTANT])\n)"⟩,
  ⟨"Evolution du CA mensuel sur T1 et T2 2024 du client Anah de la sous BU Back Office",
   "EVALUATE\nSUMMARIZECOLUMNS(\n    DIM_DATE[Mois],\n    DIM_DATE[MOIS_NOM],\n    \"Chiffre d\x27Affaires\", \n    CALCULATE(\n        [CA],\n        DIM_CLIENT[RAISON_SOCIALE_DO] = \"Annah\",\n        GL[Sous BU] = \"Back office\",\n        DIM_DATE[Année] = 2024,\n        DIM_DATE[Mois] >= 1,\n        DIM_DATE[Mois] <= 6\n    )\n)\nORDER BY DIM_DATE[Mois]"⟩,
  ⟨"Marge brute de la sous BU Manufacture pour le mois de septembre 2024",
   "EVALUATE\nROW(\n    \"Gross Margin\", \n    CALCULATE(\n        [MB],\n        GL[Sous BU] = \"Manufacture\",\n        DIM_DATE[Année] = 2024,\n        DIM_DATE[Mois] = 9\n    )\n)"⟩,
  ⟨"What is the total revenue by product for Acme Corp in 2023?",
   "EVALUATE\nSUMMARIZECOLUMNS(\n    MAPPING_PRODUIT[Produit],\n    FILTER(\n        VALUES(DIM_DATE[ANNEE]),\n        DIM_DATE[ANNEE] = 2023\n    ),\n    FILTER(\n        VALUES(DIM_CLIENT[CLIENT_NOM]),\n        DIM_CLIENT[CLIENT_NOM] = \"Acme Corp\"\n    ),\n    \"Total Revenue\", \n    CALCULATE(\n        SUM(GL[MONTANT]),\n        FILTER(\n            GL,\n            GL[COMPTE_ANALYTIQUE] IN \x7b\"7001\", \"7002\", \"7003\"\x7d // Revenue account codes\n        )\n    )\n)\nORDER BY [Total Revenue] DESC"⟩,
  ⟨"give me the best selling three products in termes of revenu, in the year 2024",
   "EVALUATE\nTOPN(\n    3,\n    SUMMARIZECOLUMNS(\n        MAPPING_PRODUIT[Produit],\n        \"Total Revenue\", \n        CALCULATE(\n            SUM(GL[MONTANT]),\n            GL[EXERCICE] = 2024\n        )\n    ),\n    [Total Revenue],\n    DESC\n)"⟩,
  ⟨"Show me monthly expenses by cost center for project PRJ2023-001",
   "EVALUATE\nSUMMARIZECOLUMNS(\n    DIM_DATE[MOIS],\n    MAPPING_CDR[CDR_NAME],\n    FILTER(\n        VALUES(GL[PROJET]),\n        GL[PROJET] = \"PRJ2023-001\"\n    ),\n    \"Total Expenses\", \n    CALCULATE(\n        SUM(GL[MONTANT]),\n        FILTER(\n            GL,\n            GL[COMPTE_ANALYTIQUE] IN \x7b\"6001\", \"6002\", \"6003\"\x7d // Expense account codes\n        )\n    )\n)\nORDER BY DIM_DATE[MOIS], [Total Expenses] DESC"⟩,
  ⟨"Compare revenue across product categories and business units, with year-over-year growth",
   "EVALUATE\nSUMMARIZECOLUMNS(\n    MAPPING_PRODUIT[Niv1_CRM], // Product category\n    DIM_SOCIETE[BU], // Business unit\n    \"Revenue 2022\", \n    CALCULATE(\n        SUM(GL[MONTANT]),\n        FILTER(ALL(DIM_DATE), DIM_DATE[ANNEE] = 2022),\n        FILTER(GL, GL[COMPTE_ANALYTIQUE] IN \x7b\"7001\", \"7002\", \"7003\"\x7d) // Revenue accounts\n    ),\n    \"Revenue 2023\", \n    CALCULATE(\n        SUM(GL[MONTANT]),\n        FILTER(ALL(DIM_DATE), DIM_DATE[ANNEE] = 2023),\n        FILTER(GL, GL[COMPTE_ANALYTIQUE] IN \x7b\"7001\", \"7002\", \"7003\"\x7d) // Revenue accounts\n    ),\n    \"YoY Growth\", \n    VAR Rev2022 = CALCULATE(\n        SUM(GL[MONTANT]),\n        FILTER(ALL(DIM_DATE), DIM_DATE[ANNEE] = 2022),\n        FILTER(GL, GL[COMPTE_ANALYTIQUE] IN \x7b\"7001\", \"7002\", \"7003\"\x7d)\n    )\n    VAR Rev2023 = CALCULATE(\n        SUM(GL[MONTANT]),\n        FILTER(ALL(DIM_DATE), DIM_DATE[ANNEE] = 2023),\n        FILTER(GL, GL[COMPTE_ANALYTIQUE] IN \x7b\"7001\", \"7002\", \"7003\"\x7d)\n    )\n    RETURN DIVIDE(Rev2023 - Rev2022, Rev2022, 0)\n)\nORDER BY [YoY Growth] DESC"⟩]

/-- `question.lower().strip()`. -/
def normQ (s : String) : String := ⟨pyStrip (lowStr s.data)⟩

/-- The exact-match scan: the first library entry whose normalized question
equals the normalized input. -/
def findExact (lib : List QueryExample) (normInput : String) : Option QueryExample :=
  lib.find? (fun e => normInput == normQ e.question)

/-- Python `str.split()` (split on whitespace runs, no empties). -/
def splitWsAux : List Char → List Char → List (List Char)
  | [], acc => if acc = [] then [] else [acc.reverse]
  | c :: cs, acc =>
    if pySpace c then
      if acc = [] then splitWsAux cs [] else acc.reverse :: splitWsAux cs []
    else splitWsAux cs (c :: acc)

def splitWs (l : List Char) : List (List Char) := splitWsAux l []

/-- `s.replace(questionmark, empty)`. -/
def removeQm (s : List Char) : List Char := s.filter (fun c => c ≠ '?')

/-- Python `set(words)`: deduplicate preserving first occurrence (only the
size and membership are consumed). -/
def dedup (l : List (List Char)) : List (List Char) :=
  l.foldl (fun acc w => if acc.contains w then acc else acc ++ [w]) []

/-- `set(question.lower().replace(qm,empty).split())`. -/
def termSet (s : String) : List (List Char) :=
  dedup (splitWs (removeQm (lowStr s.data)))

/-- One attempted match of `TOP\s+(\d+)` (case-insensitive) at the head;
returns the digit group. -/
def tryTop (s : List Char) : Option (List Char) :=
  (matchCI ['t', 'o', 'p'] s).bind fun r1 =>
    (dropRun1 pySpace r1).bind fun r2 =>
      match r2.takeWhile isDigitCh with
      | [] => none
      | ds => some ds

/-- `re.search(r"TOP\s+(\d+)", s, IGNORECASE)`, leftmost match's group. -/
def findTopNum : List Char → Option (List Char)
  | [] => none
  | c :: cs =>
    match tryTop (c :: cs) with
    | some ds => some ds
    | none => findTopNum cs

/-- One attempted match of `[Pp]\d\x7b3\x7d` at the head. -/
def tryProd (s : List Char) : Option (List Char) :=
  match s with
  | c :: d1 :: d2 :: d3 :: _ =>
    if (c = 'P' ∨ c = 'p') ∧ isDigitCh d1 ∧ isDigitCh d2 ∧ isDigitCh d3 then
      some [c, d1, d2, d3]
    else none
  | _ => none

/-- `re.search(r"[Pp]\d\x7b3\x7d", s)`, leftmost match. -/
def findProd : List Char → Option (List Char)
  | [] => none
  | c :: cs =>
    match tryProd (c :: cs) with
    | some ds => some ds
    | none => findProd cs

/-- `s.find(pat)` as an option. -/
def findSub (pat : List Char) : List Char → Option Nat
  | [] => if isPref pat [] then some 0 else none
  | c :: cs =>
    if isPref pat (c :: cs) then some 0
    else (findSub pat cs).map (· + 1)

/-- The `params_to_adapt` construction of `MatchQueryExampleTool._run`:
year substitutions, TOP-N differences, product-code differences and the
business-unit heuristic, in source order.  (`"P231" in normalized_input`
and `"Digital Solutions" in normalized_input` compare mixed-case needles
against the lowered input, exactly as the source does.) -/
def adaptParams (e : QueryExample) (normInput : String) : List String :=
  (if strContains e.question "2023" && !(strContains normInput "2023") then
    (["2020", "2021", "2022", "2024", "2025"].filter
      (fun y => strContains normInput y)).map (fun y => "Year: from 2023 to " ++ y)
   else [])
  ++ (if strContains e.question "2024" && !(strContains normInput "2024") then
    (["2020", "2021", "2022", "2023", "2025"].filter
      (fun y => strContains normInput y)).map (fun y => "Year: from 2024 to " ++ y)
   else [])
  ++ (match findTopNum e.question.data, findTopNum normInput.data with
      | some a, some b =>
        if a ≠ b then ["TOP N: from " ++ (⟨a⟩ : String) ++ " to " ++ (⟨b⟩ : String)]
        else []
      | _, _ => [])
  ++ (if strContains e.question "P231" && !(strContains normInput "P231") then
      match findProd normInput.data with
      | some m => ["Product Code: from P231 to " ++ (⟨m⟩ : String)]
      | none => []
    else [])
  ++ (if strContains e.question "Digital Solutions"
        && !(strContains normInput "Digital Solutions") then
      ["BU", "sous bu", "business unit"].filterMap (fun w =>
        match findSub w.data normInput.data with
        | some i =>
          if pyStrip ((normInput.data.drop (i + w.length)).take 30) ≠ [] then
            some "Business Unit: from Digital Solutions to a different BU"
          else none
        | none => none)
    else [])

/-- The SIMILAR_MATCH result string. -/
def similarResult (e : QueryExample) (sim : ℚ) (params : List String) : String :=
  "SIMILAR_MATCH: Found similar match with template question: \x27" ++ e.question
    ++ "\x27\n" ++ "Similarity score: " ++ fmtPct0 sim ++ "\n"
    ++ (if params ≠ [] then
        "Parameters that may need adaptation:\n"
          ++ String.join (params.map (fun p => "- " ++ p ++ "\n"))
      else "")
    ++ "\nTemplate query:\n\n" ++ e.query

/-- The similar-match loop: token-overlap similarity against every entry,
keeping the first strictly-best result above the initial 0.5 threshold. -/
def similarLoop (lib : List QueryExample) (normInput : String) : Option String :=
  (lib.foldl (fun (st : ℚ × Option String) e =>
    let terms := termSet e.question
    if 0 < terms.length then
      let userTerms := dedup (splitWs (removeQm normInput.data))
      let common := (terms.filter (fun w => userTerms.contains w)).length
      let sim := qDiv (common : ℚ) (terms.length : ℚ)
      if st.1 < sim then (sim, some (similarResult e sim (adaptParams e normInput)))
      else st
    else st) (mkRat 1 2, none)).2

/-- `MatchQueryExampleTool._run`. -/
def runMatch (lib : List QueryExample) (question : String) : String :=
  if question = "" then "Error: Question is required."
  else
    let normInput : String := ⟨pyStrip (lowStr question.data)⟩
    match findExact lib normInput with
    | some e =>
      "EXACT_MATCH: Found exact match with template question: \x27" ++ e.question
        ++ "\x27\nUse this query:\n\n" ++ e.query
    | none =>
      match similarLoop lib normInput with
      | some r => r
      | none =>
        "NO_MATCH: No matching query examples found. Create a new DAX query based on the tables and relationships."

/-! ## Entity resolver (spec-modelled) -/

/-- A Resolution Attempt surfaced to the caller (§3 of the spec). -/
structure ResolutionAttempt where
  candidateColumn : String
  candidateValue : String
  matchedValue : String
  similarityScore : ℚ

/-- Outcome of the fallback search. -/
inductive ResolveOutcome
  | resolved (query : String) (substitution : Option ResolutionAttempt)
  | noMatch

/-- Modelled from the spec: step 1 of §4.2 `resolveEmptyResult` — try each
fallback column in priority order, one re-execution per column, stopping at
the first non-empty result.  Returns the successful column (if any) and the
number of re-executions performed.  The repository implements this
behaviour only as natural-language instructions in the agent prompt
(`agent.py`, NO-RESULTS RECOVERY PROTOCOL), not as code. -/
def resolveFallback (tryColumn : String → Bool) : List String → Nat → Option String × Nat
  | [], n => (none, n)
  | c :: cs, n => if tryColumn c then (some c, n + 1) else resolveFallback tryColumn cs (n + 1)

/-- Best-scoring distinct value (first wins on ties, as no tie rule is
recoverable from the source). -/
def bestMatch (sim : String → ℚ) (l : List String) : Option (String × ℚ) :=
  l.foldl (fun acc d =>
    match acc with
    | none => some (d, sim d)
    | some (_, s2) => if s2 < sim d then some (d, sim d) else acc) none

/-- Modelled from the spec: §4.2 `resolveEmptyResult`.  After the fallback
columns, one similarity pass over the distinct values of the original
column re-executes at most once more (only when the best match reaches the
acceptance threshold), and every substitution is surfaced as a
`ResolutionAttempt`.  The second component counts re-executions. -/
def similarityStep (sim : String → ℚ) (threshold : ℚ)
    (rewrite : String → String → String) (origColumn origValue : String)
    (distinctValues : List String) (n : Nat) : ResolveOutcome × Nat :=
  match bestMatch sim distinctValues with
  | some (d, s) =>
    if threshold ≤ s then
      (.resolved (rewrite origColumn d) (some ⟨origColumn, origValue, d, s⟩), n + 1)
    else (.noMatch, n)
  | none => (.noMatch, n)

def resolveEmptyResult (tryColumn : String → Bool) (distinctValues : List String)
    (sim : String → ℚ) (threshold : ℚ) (rewrite : String → String → String)
    (origColumn origValue : String) (fallbackColumns : List String) :
    ResolveOutcome × Nat :=
  match resolveFallback tryColumn fallbackColumns 0 with
  | (some c, n) => (.resolved (rewrite c origValue) (some ⟨c, origValue, origValue, 1⟩), n)
  | (none, n) => similarityStep sim threshold rewrite origColumn origValue distinctValues n

/-! ## Theorems -/

/-! ### Lemmas about the string primitives -/

theorem dropWhile_eq_self_of_take (p : Char → Bool) (l : List Char)
    (h : ∀ c ∈ l.take 1, p c = false) : l.dropWhile p = l := by
  cases l with
  | nil => rfl
  | cons c cs => simp [List.dropWhile, h c (by simp)]

theorem dropWhile_eq_self_of_all (p : Char → Bool) (l : List Char)
    (h : ∀ c ∈ l, p c = false) : l.dropWhile p = l :=
  dropWhile_eq_self_of_take p l fun c hc => h c (List.take_subset 1 l hc)

theorem dropWhile_append_all (p : Char → Bool) (l₁ l₂ : List Char)
    (h : ∀ c ∈ l₁, p c = true) : (l₁ ++ l₂).dropWhile p = l₂.dropWhile p := by
  induction l₁ with
  | nil => rfl
  | cons c cs ih =>
    rw [List.cons_append, List.dropWhile_cons, if_pos (h c (by simp))]
    exact ih fun d hd => h d (by simp [hd])

theorem stripL_eq_self (l : List Char) (h : ∀ c ∈ l.take 1, pySpace c = false) :
    stripL l = l := dropWhile_eq_self_of_take pySpace l h

theorem stripL_cons_pos (c : Char) (l : List Char) (h : pySpace c = true) :
    stripL (c :: l) = stripL l := by
  simp [stripL, List.dropWhile_cons, h]

theorem stripR_eq_self (l : List Char) (h : ∀ c ∈ l.reverse.take 1, pySpace c = false) :
    stripR l = l := by
  unfold stripR
  rw [stripL_eq_self l.reverse h, List.reverse_reverse]

theorem pyStrip_eq_self (l : List Char) (h1 : ∀ c ∈ l.take 1, pySpace c = false)
    (h2 : ∀ c ∈ l.reverse.take 1, pySpace c = false) : pyStrip l = l := by
  unfold pyStrip
  rw [stripL_eq_self l h1, stripR_eq_self l h2]

theorem exists_rev_cons (b : List Char) (h : b ≠ []) :
    ∃ c t, b.reverse = c :: t ∧ c ∈ b := by
  cases hb : b.reverse with
  | nil => exact absurd (by simpa using congrArg List.reverse hb) h
  | cons c t =>
    refine ⟨c, t, rfl, ?_⟩
    have : c ∈ b.reverse := by rw [hb]; exact List.mem_cons_self c t
    simpa using this

/-! ### Lemmas about the regex primitives -/

theorem matchCI_evalUp (r : List Char) : matchCI evalKw (evalUp ++ r) = some r := rfl

theorem matchCI_drop_none (b : List Char) (h : containsCI evalKw b = false) :
    ∀ k, matchCI evalKw (b.drop k) = none := by
  induction b with
  | nil => intro k; rw [List.drop_nil]; rfl
  | cons c cs ih =>
    intro k
    rw [containsCI] at h
    have h1 : (matchCI evalKw (c :: cs)).isSome = false := by
      cases hm : (matchCI evalKw (c :: cs)).isSome <;> simp [hm] at h ⊢
    have h2 : containsCI evalKw cs = false := by
      cases hm : containsCI evalKw cs <;> simp [hm] at h ⊢
    cases k with
    | zero =>
      rw [List.drop_zero]
      cases hm : matchCI evalKw (c :: cs) with
      | none => rfl
      | some r => rw [hm] at h1; simp at h1
    | succ k => rw [List.drop_succ_cons]; exact ih h2 k

theorem tryLangTag_none_of_matchCI (s : List Char) (h : matchCI evalKw s = none) :
    tryLangTag s = none := by
  unfold tryLangTag
  rw [h, Option.none_bind]

theorem nestedHere_false_of_matchCI (s : List Char) (h : matchCI evalKw s = none) :
    nestedHere s = false := by
  unfold nestedHere
  rw [h, Option.none_bind, Option.map_none', Option.getD_none]

theorem dropRun1_subset (p : Char → Bool) (l r : List Char) (h : dropRun1 p l = some r) :
    ∀ c ∈ r, c ∈ l := by
  cases l with
  | nil => simp [dropRun1] at h
  | cons a as =>
    have h' : (if p a = true then some (as.dropWhile p) else none) = some r := h
    by_cases hp : p a = true
    · rw [if_pos hp, Option.some_inj] at h'
      intro c hc
      have : c ∈ as := (List.dropWhile_sublist p).subset (h' ▸ hc)
      simp [this]
    · rw [if_neg hp] at h'; cases h'

theorem dropRun1_space_body (b : List Char) (hns : ∀ c ∈ b, pySpace c = false) :
    dropRun1 pySpace (' ' :: b) = some b := by
  show some (b.dropWhile pySpace) = some b
  rw [dropWhile_eq_self_of_all pySpace b hns]

theorem tryLangTag_core (b : List Char) (hns : ∀ c ∈ b, pySpace c = false) :
    tryLangTag (evalSp ++ b) = none := by
  unfold tryLangTag
  rw [show matchCI evalKw (evalSp ++ b) = some (' ' :: b) from rfl, Option.some_bind,
    dropRun1_space_body b hns, Option.some_bind]
  cases hb : dropRun1 isAsciiAlpha b with
  | none => rw [Option.none_bind]
  | some r3 =>
    rw [Option.some_bind]
    cases r3 with
    | nil => rfl
    | cons d ds =>
      have hd : d ∈ b := dropRun1_subset isAsciiAlpha b (d :: ds) hb d (by simp)
      show (if pySpace d = true then some (ds.dropWhile pySpace) else none) = none
      rw [if_neg (by simp [hns d hd])]

theorem tryLangTag_core_drop (b : List Char) (hns : ∀ c ∈ b, pySpace c = false)
    (hno : containsCI evalKw b = false) :
    ∀ k, tryLangTag ((evalSp ++ b).drop k) = none := by
  intro k
  rcases k with _|_|_|_|_|_|_|_|_|n
  · exact tryLangTag_core b hns
  · exact tryLangTag_none_of_matchCI _ rfl
  · exact tryLangTag_none_of_matchCI _ rfl
  · exact tryLangTag_none_of_matchCI _ rfl
  · exact tryLangTag_none_of_matchCI _ rfl
  · exact tryLangTag_none_of_matchCI _ rfl
  · exact tryLangTag_none_of_matchCI _ rfl
  · exact tryLangTag_none_of_matchCI _ rfl
  · exact tryLangTag_none_of_matchCI _ rfl
  · exact tryLangTag_none_of_matchCI _ (matchCI_drop_none b hno n)

theorem subLangAux_eq_self (s : List Char) (h : ∀ k, tryLangTag (s.drop k) = none) :
    ∀ n, subLangAux n s = s := by
  intro n
  induction n generalizing s with
  | zero => rfl
  | succ n ih =>
    cases s with
    | nil => rfl
    | cons c cs =>
      have h0 : tryLangTag (c :: cs) = none := h 0
      rw [subLangAux, h0]
      show c :: subLangAux n cs = c :: cs
      exact congrArg (c :: ·) (ih cs fun k => h (k + 1))

theorem subLang_eq_self (s : List Char) (h : ∀ k, tryLangTag (s.drop k) = none) :
    subLang s = s := subLangAux_eq_self s h _

theorem subLang_head_match (c : Char) (cs rem : List Char)
    (h : tryLangTag (c :: cs) = some rem)
    (hrem : ∀ k, tryLangTag (rem.drop k) = none) :
    subLang (c :: cs) = evalUp ++ ' ' :: rem := by
  show subLangAux (c :: cs).length (c :: cs) = _
  rw [List.length_cons, subLangAux, h]
  show evalUp ++ ' ' :: subLangAux cs.length rem = _
  rw [subLangAux_eq_self rem hrem]

theorem hasNested_eq_false (s : List Char) (h : ∀ k, nestedHere (s.drop k) = false) :
    hasNested s = false := by
  induction s with
  | nil => rfl
  | cons c cs ih =>
    have h0 : nestedHere (c :: cs) = false := h 0
    rw [hasNested, h0, ih fun k => h (k + 1)]
    rfl

theorem nestedHere_core (b : List Char) (hns : ∀ c ∈ b, pySpace c = false)
    (hno : containsCI evalKw b = false) : nestedHere (evalSp ++ b) = false := by
  unfold nestedHere
  rw [show matchCI evalKw (evalSp ++ b) = some (' ' :: b) from rfl, Option.some_bind,
    dropRun1_space_body b hns, Option.map_some', Option.getD_some]
  rw [show matchCI evalKw b = none from matchCI_drop_none b hno 0]
  rfl

theorem nestedHere_core_drop (b : List Char) (hns : ∀ c ∈ b, pySpace c = false)
    (hno : containsCI evalKw b = false) :
    ∀ k, nestedHere ((evalSp ++ b).drop k) = false := by
  intro k
  rcases k with _|_|_|_|_|_|_|_|_|n
  · exact nestedHere_core b hns hno
  · exact nestedHere_false_of_matchCI _ rfl
  · exact nestedHere_false_of_matchCI _ rfl
  · exact nestedHere_false_of_matchCI _ rfl
  · exact nestedHere_false_of_matchCI _ rfl
  · exact nestedHere_false_of_matchCI _ rfl
  · exact nestedHere_false_of_matchCI _ rfl
  · exact nestedHere_false_of_matchCI _ rfl
  · exact nestedHere_false_of_matchCI _ rfl
  · exact nestedHere_false_of_matchCI _ (matchCI_drop_none b hno n)

theorem countCI_eq_zero (pat s : List Char) (h : containsCI pat s = false) :
    countCI pat s = 0 := by
  induction s with
  | nil =>
    rw [containsCI] at h
    rw [countCI, if_neg (by simp [h])]
  | cons c cs ih =>
    rw [containsCI] at h
    have h1 : (matchCI pat (c :: cs)).isSome = false := by
      cases hm : (matchCI pat (c :: cs)).isSome <;> simp [hm] at h ⊢
    have h2 : containsCI pat cs = false := by
      cases hm : containsCI pat cs <;> simp [hm] at h ⊢
    rw [countCI, if_neg (by simp [h1]), ih h2]

theorem countCI_core (b : List Char) (hno : containsCI evalKw b = false) :
    countCI evalKw (evalSp ++ b) = 1 := by
  have hr : countCI evalKw (evalSp ++ b)
      = 1 + (0 + (0 + (0 + (0 + (0 + (0 + (0 + (0 + countCI evalKw b)))))))) := rfl
  rw [hr, countCI_eq_zero evalKw b hno]

theorem hasQQ_cons_ne (c : Char) (l : List Char) (h : c ≠ '"') :
    hasQQ (c :: l) = hasQQ l := by
  cases l with
  | nil => rfl
  | cons d ds =>
    rw [hasQQ]
    simp [h]

theorem squashQQ_eq_self (s : List Char) (h : hasQQ s = false) : squashQQ s = s := by
  induction s with
  | nil => rfl
  | cons c cs ih =>
    cases cs with
    | nil => rfl
    | cons d ds =>
      rw [hasQQ] at h
      have hcd : ¬(c = '"' ∧ d = '"') := by
        rintro ⟨rfl, rfl⟩
        simp at h
      rw [squashQQ, if_neg hcd]
      congr 1
      apply ih
      cases hm : hasQQ (d :: ds)
      · rfl
      · rw [hm] at h; simp at h

theorem expandTabs_eq_self (s : List Char) (h : ∀ c ∈ s, c ≠ '\t') :
    expandTabs s = s := by
  induction s with
  | nil => rfl
  | cons c cs ih =>
    rw [expandTabs, if_neg (h c (by simp))]
    rw [ih fun d hd => h d (by simp [hd])]

theorem hasQQ_core (b : List Char) (h : hasQQ b = false) :
    hasQQ (evalSp ++ b) = false := by
  show hasQQ ('E' :: 'V' :: 'A' :: 'L' :: 'U' :: 'A' :: 'T' :: 'E' :: ' ' :: b) = false
  rw [hasQQ_cons_ne _ _ (by decide), hasQQ_cons_ne _ _ (by decide),
    hasQQ_cons_ne _ _ (by decide), hasQQ_cons_ne _ _ (by decide),
    hasQQ_cons_ne _ _ (by decide), hasQQ_cons_ne _ _ (by decide),
    hasQQ_cons_ne _ _ (by decide), hasQQ_cons_ne _ _ (by decide),
    hasQQ_cons_ne _ _ (by decide), h]

theorem core_no_tab (b : List Char) (hns : ∀ c ∈ b, pySpace c = false) :
    ∀ d ∈ evalSp ++ b, d ≠ '\t' := by
  intro d hd
  rw [List.mem_append] at hd
  rcases hd with h | h
  · fin_cases h <;> decide
  · intro he
    subst he
    exact absurd (hns _ h) (by decide)

theorem pyStrip_core (b : List Char) (hne : b ≠ [])
    (hns : ∀ c ∈ b, pySpace c = false) :
    pyStrip (evalSp ++ b) = evalSp ++ b := by
  obtain ⟨c, t, hrev, hc⟩ := exists_rev_cons b hne
  apply pyStrip_eq_self
  · rw [show (evalSp ++ b).take 1 = ['E'] from rfl]
    intro d hd
    rw [List.mem_singleton] at hd
    subst hd
    decide
  · have hr1 : (evalSp ++ b).reverse.take 1 = [c] := by
      rw [List.reverse_append, hrev]
      rfl
    rw [hr1]
    intro d hd
    rw [List.mem_singleton] at hd
    rw [hd]
    exact hns c hc

theorem endsWithFence_core (b : List Char) (hne : b ≠ [])
    (hbt : ∀ c ∈ b, c ≠ '`') :
    endsWithFence (evalSp ++ b) = false := by
  obtain ⟨c, t, hrev, hc⟩ := exists_rev_cons b hne
  have hcb : ('`' == c) = false := by
    cases hcc : ('`' == c)
    · rfl
    · exact absurd (eq_of_beq hcc) (fun hh => hbt c hc hh.symm)
  unfold endsWithFence
  rw [List.reverse_append, hrev]
  show isPref fence3 (c :: (t ++ evalSp.reverse)) = false
  simp [fence3, isPref, hcb]

theorem cleanFence_core (b : List Char) (hne : b ≠ [])
    (hbt : ∀ c ∈ b, c ≠ '`') :
    cleanFence (evalSp ++ b) = evalSp ++ b := by
  unfold cleanFence
  rw [show isPref fence3 (evalSp ++ b) = false from rfl,
    if_neg (show ¬(false = true) from by decide),
    endsWithFence_core b hne hbt,
    if_neg (show ¬(false = true) from by decide)]

theorem cleanQuote_core (b : List Char) : cleanQuote (evalSp ++ b) = evalSp ++ b := rfl

theorem cleanAfterSub (b : List Char)
    (hns : ∀ c ∈ b, pySpace c = false)
    (hno : containsCI evalKw b = false)
    (hqq : hasQQ b = false) :
    expandTabs (squashQQ (ensureEval (dedupEval (evalSp ++ b)))) = evalSp ++ b := by
  have hnest : hasNested (evalSp ++ b) = false :=
    hasNested_eq_false _ (nestedHere_core_drop b hns hno)
  unfold dedupEval ensureEval
  rw [hnest, if_neg (show ¬(false = true) from by decide),
    show (matchCI evalKw (evalSp ++ b)).isSome = true from rfl,
    if_pos (show true = true from rfl),
    squashQQ_eq_self _ (hasQQ_core b hqq),
    expandTabs_eq_self _ (core_no_tab b hns)]

theorem cleanFromSub (b : List Char)
    (hns : ∀ c ∈ b, pySpace c = false)
    (hno : containsCI evalKw b = false)
    (hqq : hasQQ b = false) :
    expandTabs (squashQQ (ensureEval (dedupEval (subLang (evalSp ++ b))))) = evalSp ++ b := by
  rw [subLang_eq_self _ (tryLangTag_core_drop b hns hno)]
  exact cleanAfterSub b hns hno hqq

theorem findNL_append (l₁ l₂ : List Char) (h : ∀ c ∈ l₁, c ≠ '\n') :
    findNL (l₁ ++ '\n' :: l₂) = some l₁.length := by
  induction l₁ with
  | nil => rfl
  | cons c cs ih =>
    rw [List.cons_append, findNL]
    have hcn : (c == '\n') = false := by
      cases hb : c == '\n'
      · rfl
      · exact absurd (eq_of_beq hb) (h c (by simp))
    rw [hcn, if_neg (show ¬(false = true) from by decide),
      ih fun d hd => h d (by simp [hd])]
    rfl

theorem endsWithFence_append (X b : List Char) (hne : b ≠ [])
    (hbt : ∀ c ∈ b, c ≠ '`') :
    endsWithFence (X ++ b) = false := by
  obtain ⟨c, t, hrev, hc⟩ := exists_rev_cons b hne
  have hcb : ('`' == c) = false := by
    cases hcc : ('`' == c)
    · rfl
    · exact absurd (eq_of_beq hcc) (fun hh => hbt c hc hh.symm)
  unfold endsWithFence
  rw [List.reverse_append, hrev]
  show isPref fence3 (c :: (t ++ X.reverse)) = false
  simp [fence3, isPref, hcb]

theorem subLang_of_match (s rem : List Char) (hs : s ≠ [])
    (h : tryLangTag s = some rem)
    (hrem : ∀ k, tryLangTag (rem.drop k) = none) :
    subLang s = evalUp ++ ' ' :: rem := by
  cases s with
  | nil => exact absurd rfl hs
  | cons c cs => exact subLang_head_match c cs rem h hrem

/-- Strings of the shape `EVALUATE <body>`, with a nonempty whitespace-free
body containing no further occurrence of the keyword, no doubled double-quote
and no backtick, are fixed points of `_clean_query`. -/
theorem cleanQuery_core (b : List Char) (hne : b ≠ [])
    (hns : ∀ c ∈ b, pySpace c = false)
    (hno : containsCI evalKw b = false)
    (hqq : hasQQ b = false)
    (hbt : ∀ c ∈ b, c ≠ '`') :
    cleanQuery (evalSp ++ b) = evalSp ++ b := by
  unfold cleanQuery
  rw [pyStrip_core b hne hns, cleanFence_core b hne hbt, cleanQuote_core b]
  exact cleanFromSub b hns hno hqq

theorem alpha_not_space (c : Char) (h : isAsciiAlpha c = true) : pySpace c = false := by
  cases hsp : pySpace c
  · rfl
  · exfalso
    unfold pySpace at hsp
    simp only [Bool.or_eq_true, beq_iff_eq] at hsp
    rcases hsp with ((((h1 | h1) | h1) | h1) | h1) | h1 <;> subst h1 <;> simp [isAsciiAlpha] at h

theorem cleanQuery_fenceWrap (b tag : List Char) (hne : b ≠ [])
    (hns : ∀ c ∈ b, pySpace c = false)
    (hno : containsCI evalKw b = false)
    (hqq : hasQQ b = false)
    (htag : ∀ c ∈ tag, isAsciiAlpha c = true) :
    cleanQuery (fenceWrap tag (evalSp ++ b)) = evalSp ++ b := by
  obtain ⟨c, t, hrev, hc⟩ := exists_rev_cons b hne
  have hstrip : pyStrip (fenceWrap tag (evalSp ++ b)) = fenceWrap tag (evalSp ++ b) := by
    apply pyStrip_eq_self
    · rw [show (fenceWrap tag (evalSp ++ b)).take 1 = ['`'] from rfl]
      intro d hd
      rw [List.mem_singleton] at hd
      subst hd
      decide
    · have h1 : (fenceWrap tag (evalSp ++ b)).reverse.take 1 = ['`'] := by
        unfold fenceWrap
        rw [List.reverse_append, List.reverse_cons, List.reverse_append]
        rfl
      rw [h1]
      intro d hd
      rw [List.mem_singleton] at hd
      subst hd
      decide
  have hnotag : ∀ d ∈ fence3 ++ tag, d ≠ '\n' := by
    intro d hd
    rw [List.mem_append] at hd
    rcases hd with h | h
    · fin_cases h <;> decide
    · intro he
      subst he
      exact absurd (htag _ h) (by decide)
  have hfence : cleanFence (fenceWrap tag (evalSp ++ b)) = evalSp ++ b := by
    unfold cleanFence fenceWrap
    rw [show isPref fence3
        ((fence3 ++ tag) ++ ('\n' :: ((evalSp ++ b) ++ ('\n' :: fence3)))) = true from rfl,
      if_pos (show true = true from rfl),
      findNL_append (fence3 ++ tag) _ hnotag, Option.elim_some]
    simp only [cleanFenceOpen]
    rw [if_pos (show 0 < (fence3 ++ tag).length from by
      show 0 < tag.length + 1 + 1 + 1
      omega)]
    rw [List.drop_left]
    have hqa : pyStrip ('\n' :: ((evalSp ++ b) ++ ('\n' :: fence3)))
        = (evalSp ++ b) ++ ('\n' :: fence3) := by
      unfold pyStrip
      rw [stripL_cons_pos _ _ (by decide),
        stripL_eq_self _ (by
          rw [show ((evalSp ++ b) ++ ('\n' :: fence3)).take 1 = ['E'] from rfl]
          intro d hd
          rw [List.mem_singleton] at hd
          subst hd
          decide)]
      apply stripR_eq_self
      rw [show ((evalSp ++ b) ++ ('\n' :: fence3)).reverse.take 1 = ['`'] from by
        rw [List.reverse_append]; rfl]
      intro d hd
      rw [List.mem_singleton] at hd
      subst hd
      decide
    rw [hqa]
    have hef : endsWithFence ((evalSp ++ b) ++ ('\n' :: fence3)) = true := by
      unfold endsWithFence
      rw [List.reverse_append]
      rfl
    rw [hef, if_pos (show true = true from rfl)]
    have hlen : ((evalSp ++ b) ++ ('\n' :: fence3)).length - 3 = (evalSp ++ b).length + 1 := by
      rw [List.length_append]
      show (evalSp ++ b).length + 4 - 3 = _
      omega
    rw [hlen, List.take_append 1, show ('\n' :: fence3).take 1 = ['\n'] from rfl]
    unfold pyStrip
    rw [stripL_eq_self _ (by
      rw [show ((evalSp ++ b) ++ ['\n']).take 1 = ['E'] from rfl]
      intro d hd
      rw [List.mem_singleton] at hd
      subst hd
      decide)]
    unfold stripR
    rw [List.reverse_append]
    show (stripL ('\n' :: (evalSp ++ b).reverse)).reverse = evalSp ++ b
    have hrt : (evalSp ++ b).reverse.take 1 = [c] := by
      rw [List.reverse_append, hrev]
      rfl
    rw [stripL_cons_pos _ _ (by decide),
      stripL_eq_self _ (by
        rw [hrt]
        intro d hd
        rw [List.mem_singleton] at hd
        rw [hd]
        exact hns c hc),
      List.reverse_reverse]
  unfold cleanQuery
  rw [hstrip, hfence, cleanQuote_core b]
  exact cleanFromSub b hns hno hqq

theorem cleanQuery_quoteWrap (qc : Char) (b : List Char)
    (hq : qc = '"' ∨ qc = '\'')
    (hne : b ≠ [])
    (hns : ∀ c ∈ b, pySpace c = false)
    (hno : containsCI evalKw b = false)
    (hqq : hasQQ b = false) :
    cleanQuery (quoteWrap qc (evalSp ++ b)) = evalSp ++ b := by
  have hnsq : pySpace qc = false := by rcases hq with rfl | rfl <;> decide
  have hstrip : pyStrip (quoteWrap qc (evalSp ++ b)) = quoteWrap qc (evalSp ++ b) := by
    apply pyStrip_eq_self
    · rw [show (quoteWrap qc (evalSp ++ b)).take 1 = [qc] from rfl]
      intro d hd
      rw [List.mem_singleton] at hd
      rw [hd]
      exact hnsq
    · have h1 : (quoteWrap qc (evalSp ++ b)).reverse.take 1 = [qc] := by
        unfold quoteWrap
        rw [List.reverse_cons, List.reverse_append]
        rfl
      rw [h1]
      intro d hd
      rw [List.mem_singleton] at hd
      rw [hd]
      exact hnsq
  have hfence : cleanFence (quoteWrap qc (evalSp ++ b)) = quoteWrap qc (evalSp ++ b) := by
    have hp : isPref fence3 (quoteWrap qc (evalSp ++ b)) = false := by
      rcases hq with rfl | rfl <;> rfl
    have hef : endsWithFence (quoteWrap qc (evalSp ++ b)) = false := by
      rcases hq with rfl | rfl <;>
        (unfold endsWithFence quoteWrap
         rw [List.reverse_cons, List.reverse_append]
         rfl)
    unfold cleanFence
    rw [hp, if_neg (show ¬(false = true) from by decide),
      hef, if_neg (show ¬(false = true) from by decide)]
  have hquote : cleanQuote (quoteWrap qc (evalSp ++ b)) = evalSp ++ b := by
    have hlast : (quoteWrap qc (evalSp ++ b)).getLast? = some qc := by
      show ((qc :: (evalSp ++ b)) ++ [qc]).getLast? = some qc
      exact List.getLast?_concat _
    unfold cleanQuote
    rw [show (quoteWrap qc (evalSp ++ b)).head? = some qc from rfl, hlast]
    rcases hq with rfl | rfl <;>
      (show pyStrip (((quoteWrap _ (evalSp ++ b)).drop 1).dropLast) = evalSp ++ b
       rw [show (quoteWrap _ (evalSp ++ b)).drop 1 = (evalSp ++ b) ++ [_] from rfl,
         List.dropLast_concat]
       exact pyStrip_core b hne hns)
  unfold cleanQuery
  rw [hstrip, hfence, hquote]
  exact cleanFromSub b hns hno hqq

theorem cleanQuery_misTag (b tag : List Char) (hne : b ≠ [])
    (htagne : tag ≠ []) (htaga : ∀ c ∈ tag, isAsciiAlpha c = true)
    (hns : ∀ c ∈ b, pySpace c = false)
    (hno : containsCI evalKw b = false)
    (hqq : hasQQ b = false)
    (hbt : ∀ c ∈ b, c ≠ '`') :
    cleanQuery (misTagWrap tag b) = evalSp ++ b := by
  obtain ⟨c, t, hrev, hc⟩ := exists_rev_cons b hne
  obtain ⟨g, gs, rfl⟩ : ∃ g gs, tag = g :: gs := by
    cases tag with
    | nil => exact absurd rfl htagne
    | cons g gs => exact ⟨g, gs, rfl⟩
  have hga : isAsciiAlpha g = true := htaga g (by simp)
  have hgs : pySpace g = false := alpha_not_space g hga
  have hstrip : pyStrip (misTagWrap (g :: gs) b) = misTagWrap (g :: gs) b := by
    apply pyStrip_eq_self
    · rw [show (misTagWrap (g :: gs) b).take 1 = ['E'] from rfl]
      intro d hd
      rw [List.mem_singleton] at hd
      subst hd
      decide
    · have h1 : (misTagWrap (g :: gs) b).reverse.take 1 = [c] := by
        unfold misTagWrap
        rw [List.reverse_append, List.reverse_append, List.reverse_cons, hrev]
        rfl
      rw [h1]
      intro d hd
      rw [List.mem_singleton] at hd
      rw [hd]
      exact hns c hc
  have hfence : cleanFence (misTagWrap (g :: gs) b) = misTagWrap (g :: gs) b := by
    have hp : isPref fence3 (misTagWrap (g :: gs) b) = false := rfl
    have hef : endsWithFence (misTagWrap (g :: gs) b) = false := by
      have hw : misTagWrap (g :: gs) b = (evalSp ++ ((g :: gs) ++ [' '])) ++ b := by
        unfold misTagWrap
        simp [List.append_assoc]
      rw [hw]
      exact endsWithFence_append _ b hne hbt
    unfold cleanFence
    rw [hp, if_neg (show ¬(false = true) from by decide),
      hef, if_neg (show ¬(false = true) from by decide)]
  have hquote : cleanQuote (misTagWrap (g :: gs) b) = misTagWrap (g :: gs) b :=
    cleanQuote_core ((g :: gs) ++ (' ' :: b))
  have hsub : subLang (misTagWrap (g :: gs) b) = evalUp ++ ' ' :: b := by
    apply subLang_of_match _ b (by simp [misTagWrap, evalSp, evalUp])
    · unfold tryLangTag
      rw [show matchCI evalKw (misTagWrap (g :: gs) b)
          = some (' ' :: ((g :: gs) ++ (' ' :: b))) from rfl, Option.some_bind]
      rw [show dropRun1 pySpace (' ' :: ((g :: gs) ++ (' ' :: b)))
          = some ((g :: gs) ++ (' ' :: b)) from by
        show some (((g :: gs) ++ (' ' :: b)).dropWhile pySpace) = _
        rw [dropWhile_eq_self_of_take _ _ (by
          rw [show ((g :: gs) ++ (' ' :: b)).take 1 = [g] from rfl]
          intro d hd
          rw [List.mem_singleton] at hd
          rw [hd]
          exact hgs)], Option.some_bind]
      rw [show dropRun1 isAsciiAlpha ((g :: gs) ++ (' ' :: b)) = some (' ' :: b) from by
        show (if isAsciiAlpha g = true
            then some ((gs ++ (' ' :: b)).dropWhile isAsciiAlpha) else none) = some (' ' :: b)
        rw [if_pos hga, dropWhile_append_all _ gs _ (fun d hd => htaga d (by simp [hd]))]
        rw [dropWhile_eq_self_of_take _ _ (by
          rw [show (' ' :: b).take 1 = [' '] from rfl]
          intro d hd
          rw [List.mem_singleton] at hd
          subst hd
          decide)], Option.some_bind]
      exact dropRun1_space_body b hns
    · exact fun k => tryLangTag_none_of_matchCI _ (matchCI_drop_none b hno k)
  unfold cleanQuery
  rw [hstrip, hfence, hquote, hsub]
  exact cleanAfterSub b hns hno hqq

/-! ### Claim C1: idempotence of `_clean_query` -/

/-- C1 counterexample: `_clean_query` is not idempotent.  On input `"a b"`
the first pass yields `"EVALUATE\na b"`; the second pass matches the
`EVALUATE\s+[A-Za-z]+\s+` language-tag deletion against `"EVALUATE\na "`
and yields `"EVALUATE b"`. -/
theorem C1_counterexample :
    cleanQueryS (cleanQueryS "a b") ≠ cleanQueryS "a b"
      ∧ cleanQueryS "a b" = "EVALUATE\na b"
      ∧ cleanQueryS (cleanQueryS "a b") = "EVALUATE b" := by decide

/-- C1 (amended): `_clean_query` is idempotent on every input whose cleaned
form is `EVALUATE ` followed by a nonempty whitespace-free body with no
further occurrence of `evaluate`, no doubled double-quote and no backtick.
(In general a second application can differ: it strips the trailing newline
introduced by the `EVALUATE`-prepending step, and the language-tag deletion
step can delete a further word, as in the counterexample.) -/
theorem C1_clean_idempotent_on_core (q b : List Char)
    (h : cleanQuery q = evalSp ++ b)
    (hne : b ≠ [])
    (hns : ∀ c ∈ b, pySpace c = false)
    (hno : containsCI evalKw b = false)
    (hqq : hasQQ b = false)
    (hbt : ∀ c ∈ b, c ≠ '`') :
    cleanQuery (cleanQuery q) = cleanQuery q := by
  rw [h]
  exact cleanQuery_core b hne hns hno hqq hbt

/-- C1 witness: the amended idempotence theorem applied at the concrete
input `"EVALUATE ROW(1)"`. -/
theorem C1_witness :
    cleanQuery (cleanQuery "EVALUATE ROW(1)".data) = cleanQuery "EVALUATE ROW(1)".data :=
  C1_clean_idempotent_on_core "EVALUATE ROW(1)".data "ROW(1)".data
    (by decide) (by decide) (by decide) (by decide) (by decide) (by decide)

/-! ### Claim C2: stripping wrapped noise -/

/-- C2 counterexample: a query wrapped in fenced-code delimiters on a single
line (no newline after the opening fence) is not unwrapped at all — the
backticks survive and a second `EVALUATE` is prepended, so the result
neither has its noise stripped nor contains a single `EVALUATE`. -/
theorem C2_counterexample :
    cleanQueryS "```EVALUATE ROW(1)```" = "EVALUATE\n```EVALUATE ROW(1)```"
      ∧ '`' ∈ (cleanQueryS "```EVALUATE ROW(1)```").data
      ∧ countCI evalKw (cleanQueryS "```EVALUATE ROW(1)```").data = 2 := by decide

/-- C2 (amended): for a core query `EVALUATE <body>` (nonempty
whitespace-free body, no further `evaluate`, no doubled quote, no backtick)
wrapped in a fenced code block whose opening fence line holds only an
alphabetic language tag, or wrapped in double or single quotes, or carrying
an alphabetic language tag misplaced after `EVALUATE`, `_clean_query`
strips the noise exactly, and the result starts with `EVALUATE` and contains
exactly one occurrence of the keyword.  (The fence must be followed by a
newline: a one-line fence is left in place, per the counterexample.) -/
theorem C2_normalizer_strips_wraps (b tag : List Char) (hne : b ≠ [])
    (hns : ∀ c ∈ b, pySpace c = false)
    (hno : containsCI evalKw b = false)
    (hqq : hasQQ b = false)
    (hbt : ∀ c ∈ b, c ≠ '`')
    (htaga : ∀ c ∈ tag, isAsciiAlpha c = true)
    (htagne : tag ≠ []) :
    (cleanQuery (fenceWrap tag (evalSp ++ b)) = evalSp ++ b
      ∧ cleanQuery (quoteWrap '"' (evalSp ++ b)) = evalSp ++ b
      ∧ cleanQuery (quoteWrap '\'' (evalSp ++ b)) = evalSp ++ b
      ∧ cleanQuery (misTagWrap tag b) = evalSp ++ b)
    ∧ isPref evalUp (evalSp ++ b) = true
    ∧ countCI evalKw (evalSp ++ b) = 1 :=
  ⟨⟨cleanQuery_fenceWrap b tag hne hns hno hqq htaga,
    cleanQuery_quoteWrap '"' b (Or.inl rfl) hne hns hno hqq,
    cleanQuery_quoteWrap '\'' b (Or.inr rfl) hne hns hno hqq,
    cleanQuery_misTag b tag hne htagne htaga hns hno hqq hbt⟩,
   rfl, countCI_core b hno⟩

/-- C2 witness: the amended theorem at body `ROW(1)` and tag `DAX`. -/
theorem C2_witness :
    (cleanQuery (fenceWrap "DAX".data (evalSp ++ "ROW(1)".data)) = evalSp ++ "ROW(1)".data
      ∧ cleanQuery (quoteWrap '"' (evalSp ++ "ROW(1)".data)) = evalSp ++ "ROW(1)".data
      ∧ cleanQuery (quoteWrap '\'' (evalSp ++ "ROW(1)".data)) = evalSp ++ "ROW(1)".data
      ∧ cleanQuery (misTagWrap "DAX".data "ROW(1)".data) = evalSp ++ "ROW(1)".data)
    ∧ isPref evalUp (evalSp ++ "ROW(1)".data) = true
    ∧ countCI evalKw (evalSp ++ "ROW(1)".data) = 1 :=
  C2_normalizer_strips_wraps "ROW(1)".data "DAX".data
    (by decide) (by decide) (by decide) (by decide) (by decide) (by decide) (by decide)

/-! ### Claim C3: 401 refresh-and-retry, other errors returned not raised -/

/-- C3: on a 401 first response the executor refreshes the credential
exactly once and retries the same request exactly once, returning whatever
the retry yields (escalation is the caller seeing that second response); if
the forced refresh itself fails, the 401 response is returned after the
single refresh attempt without a retry.  On any non-401, non-200 response
`execute_query` returns an error outcome carrying the engine's status and
raw error text instead of raising. -/
theorem C3_executor_retry (resp : Nat → HttpResp) (refreshOk : Bool) :
    ((resp 0).status = 401 → refreshOk = true →
      executeQueryWithRetry resp refreshOk = (resp 1, 2, 1))
    ∧ ((resp 0).status = 401 → refreshOk = false →
      executeQueryWithRetry resp refreshOk = (resp 0, 1, 1))
    ∧ ((resp 0).status ≠ 401 →
      executeQueryWithRetry resp refreshOk = (resp 0, 1, 0))
    ∧ ((executeQueryWithRetry resp refreshOk).1.status ≠ 200 →
      executeQuery resp refreshOk
        = .error ("Failed to execute query: "
            ++ toString (executeQueryWithRetry resp refreshOk).1.status ++ " - "
            ++ (executeQueryWithRetry resp refreshOk).1.text)) := by
  refine ⟨?_, ?_, ?_, ?_⟩
  · intro h401 hok
    subst hok
    simp [executeQueryWithRetry, retryLoop, h401]
  · intro h401 hok
    subst hok
    simp [executeQueryWithRetry, retryLoop, h401]
  · intro h401
    simp [executeQueryWithRetry, retryLoop, h401]
  · intro h200
    simp only [executeQuery]
    rw [if_pos h200]

/-- C3 witness: a 401 answered by a 500 retry is refreshed once and retried
once; a 500 is returned as an error dict with the raw text. -/
theorem C3_witness :
    executeQueryWithRetry
        (fun n => if n = 0 then ⟨401, "Unauthorized", .noResults⟩
                  else ⟨500, "boom", .noResults⟩) true
      = (⟨500, "boom", .noResults⟩, 2, 1)
    ∧ executeQuery (fun _ => ⟨500, "boom", .noResults⟩) true
      = .error "Failed to execute query: 500 - boom" := by
  constructor
  · have h := (C3_executor_retry
      (fun n => if n = 0 then ⟨401, "Unauthorized", .noResults⟩
                else ⟨500, "boom", .noResults⟩) true).1 rfl rfl
    simpa using h
  · have h := (C3_executor_retry (fun _ => ⟨500, "boom", .noResults⟩) true).2.2.2
      (by decide)
    rw [h]
    decide

/-! ### Claim C9: reshaping invariants -/

theorem foldl_dictInsert (row : List PValue) (L : List (Nat × Option String))
    (d : List (String × PValue))
    (h : ∀ p ∈ d, ∀ ic ∈ L, p.1 ≠ colName ic.1 ic.2)
    (hnodup : (L.map (fun ic => colName ic.1 ic.2)).Nodup) :
    L.foldl (fun d ic => dictInsert d (colName ic.1 ic.2) (row.getD ic.1 PValue.null)) d
      = d ++ L.map (fun ic => (colName ic.1 ic.2, row.getD ic.1 PValue.null)) := by
  induction L generalizing d with
  | nil => simp
  | cons ic L ih =>
    rw [List.foldl_cons]
    have hfresh : (d.any (fun p => p.1 == colName ic.1 ic.2)) = false := by
      rw [List.any_eq_false]
      intro p hp
      simpa using h p hp ic (by simp)
    rw [show dictInsert d (colName ic.1 ic.2) (row.getD ic.1 PValue.null)
        = d ++ [(colName ic.1 ic.2, row.getD ic.1 PValue.null)] from by
      unfold dictInsert
      rw [hfresh]
      simp]
    rw [List.map_cons, List.nodup_cons] at hnodup
    rw [ih (d ++ [(colName ic.1 ic.2, row.getD ic.1 PValue.null)]) ?_ hnodup.2]
    · simp
    · intro p hp jc hjc
      rw [List.mem_append] at hp
      rcases hp with hp | hp
      · exact h p hp jc (by simp [hjc])
      · rw [List.mem_singleton] at hp
        subst hp
        intro he
        have he' : colName ic.1 ic.2 = colName jc.1 jc.2 := he
        exact hnodup.1 (by rw [he']; exact List.mem_map_of_mem _ hjc)

/-- The reshaped record equals the column list zipped (in column order) with
the row, padding missing trailing cells with null. -/
theorem buildRow_eq (columns : List (Option String)) (row : List PValue)
    (hnodup : (columns.enum.map (fun ic => colName ic.1 ic.2)).Nodup) :
    buildRow columns row
      = columns.enum.map (fun ic => (colName ic.1 ic.2, row.getD ic.1 PValue.null)) := by
  unfold buildRow
  rw [foldl_dictInsert row columns.enum [] (by simp) hnodup]
  simp

/-- C9: when a 200 response carries nonempty column metadata with distinct
column names, `execute_query` returns one record per row; each record has
exactly one entry per listed column, in column order, a row shorter than the
column list is padded with trailing nulls (not truncated), and each present
cell — null included — is kept as is. -/
theorem C9_reshape_invariants (resp : Nat → HttpResp) (refreshOk : Bool) (t : WireTable)
    (hok : (executeQueryWithRetry resp refreshOk).1.status = 200)
    (hbody : (executeQueryWithRetry resp refreshOk).1.body = .withTables t)
    (hcols : t.columns ≠ [])
    (hnodup : (t.columns.enum.map (fun ic => colName ic.1 ic.2)).Nodup) :
    executeQuery resp refreshOk = .records (t.rows.map (buildRow t.columns))
    ∧ ∀ row ∈ t.rows,
        buildRow t.columns row
          = t.columns.enum.map (fun ic => (colName ic.1 ic.2, row.getD ic.1 PValue.null))
        ∧ (buildRow t.columns row).map Prod.fst
            = t.columns.enum.map (fun ic => colName ic.1 ic.2)
        ∧ (buildRow t.columns row).length = t.columns.length := by
  constructor
  · simp only [executeQuery]
    rw [if_neg (by simp [hok]), hbody]
    show (if t.columns = [] then ExecOutcome.rawRows t.rows
        else ExecOutcome.records (t.rows.map (buildRow t.columns)))
      = ExecOutcome.records (t.rows.map (buildRow t.columns))
    rw [if_neg hcols]
  · intro row _
    refine ⟨buildRow_eq t.columns row hnodup, ?_, ?_⟩
    · rw [buildRow_eq t.columns row hnodup, List.map_map]
      rfl
    · rw [buildRow_eq t.columns row hnodup, List.length_map, List.enum_length]

/-- C9 witness: two named columns; the second row is short and gets a null;
an explicit null cell survives. -/
theorem C9_witness :
    executeQuery (fun _ => ⟨200, "",
        .withTables ⟨[some "A", some "B"],
          [[PValue.num 1, PValue.null], [PValue.str "x"]]⟩⟩) true
      = .records [[("A", PValue.num 1), ("B", PValue.null)],
                  [("A", PValue.str "x"), ("B", PValue.null)]] := by
  have h := C9_reshape_invariants
    (fun _ => ⟨200, "",
        .withTables ⟨[some "A", some "B"],
          [[PValue.num 1, PValue.null], [PValue.str "x"]]⟩⟩) true
    ⟨[some "A", some "B"], [[PValue.num 1, PValue.null], [PValue.str "x"]]⟩
    (by decide) (by decide) (by decide) (by decide)
  rw [h.1]
  decide

/-! ### Claim C10: auth-manager token cache -/

/-- C10: `get_token` without `force_refresh` serves the cached credential
exactly when a token and a tracked expiry exist and the current time is
strictly more than five minutes before the expiry; in every other case it
attempts an acquisition, and an acquisition failure clears both the cached
token and the tracked expiry before propagating the error (`none`). -/
theorem C10_get_token (st : AuthState) (now : Int) (force : Bool) (acq : AcquireResult) :
    (cacheValid st now = true
      ↔ ∃ tk e, st.token = some tk ∧ st.expiresAt = some e ∧ now + 300 < e)
    ∧ (force = false → cacheValid st now = true →
        getToken st now force acq = (st.token, st, false))
    ∧ (force = true ∨ cacheValid st now = false →
        (getToken st now force acq).2.2 = true
        ∧ (∀ tok expOn, acq = .ok tok expOn →
            getToken st now force acq
              = (some tok, ⟨some tok, some (expOn.getD (now + 3000))⟩, true))
        ∧ (acq = .fail → getToken st now force acq = (none, ⟨none, none⟩, true))) := by
  refine ⟨?_, ?_, ?_⟩
  · obtain ⟨tk, e⟩ := st
    cases tk with
    | none => simp [cacheValid]
    | some tk0 =>
      cases e with
      | none => simp [cacheValid]
      | some e0 =>
        simp only [cacheValid, decide_eq_true_eq]
        constructor
        · intro h
          exact ⟨tk0, e0, rfl, rfl, by omega⟩
        · rintro ⟨tk1, e1, h1, h2, h3⟩
          cases h1
          cases h2
          omega
  · intro hf hv
    subst hf
    unfold getToken
    rw [if_pos (by simp [hv])]
  · intro hcase
    have hcond : (!force && cacheValid st now) = false := by
      rcases hcase with rfl | hcv
      · rfl
      · simp [hcv]
    refine ⟨?_, ?_, ?_⟩
    · unfold getToken
      rw [hcond]
      cases acq <;> rfl
    · intro tok expOn hacq
      subst hacq
      unfold getToken
      rw [hcond]
      rfl
    · intro hacq
      subst hacq
      unfold getToken
      rw [hcond]
      rfl

/-- C10 witness: a still-valid cache is served; inside the buffer with a
failing acquisition, both fields are cleared and the error propagates. -/
theorem C10_witness :
    getToken ⟨some "tok", some 10000⟩ 100 false (.ok "new" none)
      = (some "tok", ⟨some "tok", some 10000⟩, false)
    ∧ getToken ⟨some "tok", some 10000⟩ 9800 false .fail
      = (none, ⟨none, none⟩, true) := by
  constructor
  · exact (C10_get_token ⟨some "tok", some 10000⟩ 100 false (.ok "new" none)).2.1
      rfl (by decide)
  · exact ((C10_get_token ⟨some "tok", some 10000⟩ 9800 false .fail).2.2
      (Or.inr (by decide))).2.2 rfl

theorem qMul_eq (a b : ℚ) : qMul a b = a * b := by
  unfold qMul
  rw [Rat.mkRat_eq_div]
  push_cast
  rw [← div_mul_div_comm, Rat.num_div_den, Rat.num_div_den]

theorem qDiv_eq (a b : ℚ) : qDiv a b = a / b := by
  unfold qDiv
  rw [Rat.divInt_eq_div]
  push_cast
  conv_rhs => rw [← Rat.num_div_den a, ← Rat.num_div_den b]
  rw [div_div_eq_mul_div, div_mul_eq_mul_div, div_div, mul_comm ((a.den : ℚ)) _]

theorem qAdd_eq (a b : ℚ) : qAdd a b = a + b := by
  have ha : ((a.den : ℚ)) ≠ 0 := by
    exact_mod_cast a.den_nz
  have hb : ((b.den : ℚ)) ≠ 0 := by
    exact_mod_cast b.den_nz
  unfold qAdd
  rw [Rat.mkRat_eq_div]
  push_cast
  conv_rhs => rw [← Rat.num_div_den a, ← Rat.num_div_den b]
  rw [div_add_div _ _ ha hb, mul_comm ((a.den : ℚ)) ((b.num : ℚ))]

theorem qSub_eq (a b : ℚ) : qSub a b = a - b := by
  have ha : ((a.den : ℚ)) ≠ 0 := by
    exact_mod_cast a.den_nz
  have hb : ((b.den : ℚ)) ≠ 0 := by
    exact_mod_cast b.den_nz
  unfold qSub
  rw [Rat.mkRat_eq_div]
  push_cast
  conv_rhs => rw [← Rat.num_div_den a, ← Rat.num_div_den b]
  rw [div_sub_div _ _ ha hb, mul_comm ((a.den : ℚ)) ((b.num : ℚ))]

/-! ### Claim C5: value rendering rules -/

/-- C5 counterexample: a non-numeric string renders as itself, not `N/A`
(the `except` arm returns `str(value)`), and the million threshold is on
the absolute value, so `-1000000` renders `€-1.00M` rather than the
claim's `< 1000` band `€-1000000.00`. -/
theorem C5_counterexample :
    formatFinancialValue (.str "abc") false = "abc"
    ∧ formatFinancialValue (.num (-1000000)) false = "€-1.00M" := by decide

/-- C5 (amended): for numeric values the financial rendering follows the
§4.5 bands with thresholds on the absolute value (the code's three
sub-thousand bands all produce `€{v:.2f}`); null renders `N/A`; percentage
values render `{v:.1f}%`.  Non-numeric strings are returned verbatim
(only empty or null-like cleaned strings give `N/A`), per the
counterexample. -/
theorem C5_financial_rendering (q : ℚ) (b : Bool) :
    formatFinancialValue (.num q) false = specFinancialRender q
    ∧ formatFinancialValue .null b = "N/A"
    ∧ formatFinancialValue (.num q) true = fmt1 q ++ "%" := by
  refine ⟨?_, rfl, rfl⟩
  show (if |q| ≥ 1000000 then "€" ++ fmt2 (qDiv q 1000000) ++ "M"
      else if |q| ≥ 1000 then "€" ++ fmtSep2 q
      else if |q| ≥ 100 then "€" ++ fmt2 q
      else if |q| ≥ 1 then "€" ++ fmt2 q
      else "€" ++ fmt2 q) = specFinancialRender q
  unfold specFinancialRender
  rw [qDiv_eq]
  split_ifs <;> rfl

/-! ### Claim C4: the `{"Variance": 591000}` rendering -/

/-- C4 counterexample: the single record `{"Variance": 591000}` takes the
scalar path and renders `Variance: €591,000.00` — there is no `K`
abbreviation anywhere in the formatter and the scalar path applies no `+`
(its financial keyword list does not even match `variance`), so the claimed
`+€591.00K` does not occur. -/
theorem C4_counterexample :
    formatResults (.results [[("Variance", PValue.num 591000)]]) = "Variance: €591,000.00"
    ∧ containsSub "+€591.00K".data
        (formatResults (.results [[("Variance", PValue.num 591000)]])).data = false := by
  decide

/-- C4 (amended): `{"Variance": 591000}` formats as `Variance: €591,000.00`
(thousands separators, no abbreviation, no sign prefix); the `+` prefix for
positive variance values exists only in the multi-row renderings, e.g. the
enhanced table, where `591000` in a `Variance` column renders
`+€591,000.00`. -/
theorem C4_variance_rendering :
    formatResults (.results [[("Variance", PValue.num 591000)]]) = "Variance: €591,000.00"
    ∧ containsSub "+€591,000.00".data
        (formatTableEnhanced [[("Variance", PValue.num 591000)],
                              [("Variance", PValue.num (-1))]]).data = true := by
  decide

/-! ### Claim C6: shape classification -/

/-- C6 counterexample: a two-row result whose only period-like column is
`Quarter` — squarely in the claim's date/period vocabulary — is NOT
classified as a time series: case 2 only checks
`["mois","date","month","year","année"]`, so the result falls through to
the generic table renderer. -/
theorem C6_counterexample :
    strContains (lowS "Quarter") "quarter" = true
    ∧ formatResults (.results [[("Quarter", PValue.str "Q1"), ("CA", PValue.num 100)],
                               [("Quarter", PValue.str "Q2"), ("CA", PValue.num 200)]])
      = formatTableEnhanced [[("Quarter", PValue.str "Q1"), ("CA", PValue.num 100)],
                             [("Quarter", PValue.str "Q2"), ("CA", PValue.num 200)]]
    ∧ isPref "Time Series".data
        (formatResults (.results [[("Quarter", PValue.str "Q1"), ("CA", PValue.num 100)],
                                  [("Quarter", PValue.str "Q2"), ("CA", PValue.num 200)]])).data
      = false := by
  decide

/-- C6 (amended): classification is checked in order — a single one-field
record is rendered as a scalar first; otherwise a result with more than one
record in which some column name contains one of `mois`, `date`, `month`,
`year`, `année` is rendered as a time series.  The claim's further terms
(quarter, semester, day) are only in the renderer's time-column pick, not
in the classifier, per the counterexample. -/
theorem C6_shape_classification (rs : List QRecord) :
    (rs.length = 1 → (rs.headD []).length = 1 →
      formatResults (.results rs) = formatScalar (rs.headD []))
    ∧ (1 < rs.length →
      (rkeys (rs.headD [])).any
        (fun col => tsClassTerms.any (fun t => strContains (lowS col) t)) = true →
      formatResults (.results rs) = formatTimeSeriesEnhanced rs) := by
  constructor
  · intro h1 h2
    simp only [formatResults]
    rw [if_pos (by omega), if_pos ⟨h1, h2⟩]
  · intro h1 h2
    simp only [formatResults]
    rw [if_pos (by omega), if_neg (fun hc => by omega), if_pos ⟨h1, h2⟩]

/-- C6 witness: a `Year` column with two rows is rendered as a time series;
a single one-field record is rendered as a scalar. -/
theorem C6_witness :
    formatResults (.results [[("Year", PValue.num 2024), ("CA", PValue.num 100)],
                             [("Year", PValue.num 2025), ("CA", PValue.num 200)]])
      = formatTimeSeriesEnhanced [[("Year", PValue.num 2024), ("CA", PValue.num 100)],
                                  [("Year", PValue.num 2025), ("CA", PValue.num 200)]]
    ∧ formatResults (.results [[("CA", PValue.num 5)]]) = formatScalar [("CA", PValue.num 5)] := by
  constructor
  · exact (C6_shape_classification _).2 (by decide) (by decide)
  · exact (C6_shape_classification _).1 (by decide) (by decide)

/-! ### Claim C8: exact matching -/

/-- C8 counterexample: an input that equals a library question up to case
and whitespace — here an extra internal space, so the token lists coincide —
is NOT an exact match: the code compares `lower().strip()` strings, which
differ on internal whitespace, and the tool answers with a SIMILAR_MATCH
instead. -/
theorem C8_counterexample :
    splitWs (lowStr "Marge  brute de la sous BU Manufacture pour le mois de septembre 2024".data)
      = splitWs (lowStr "Marge brute de la sous BU Manufacture pour le mois de septembre 2024".data)
    ∧ (DAX_EXAMPLES.map (fun e => e.question)).contains
        "Marge brute de la sous BU Manufacture pour le mois de septembre 2024" = true
    ∧ isPref "EXACT_MATCH".data
        (runMatch DAX_EXAMPLES
          "Marge  brute de la sous BU Manufacture pour le mois de septembre 2024").data
      = false := by
  decide

/-- C8 (amended): an input identical to some library question up to case
and LEADING/TRAILING whitespace (internal whitespace must match exactly)
returns an EXACT_MATCH carrying the matched entry's query unmodified; when
several entries normalize equally, the first one wins (`findExact`). -/
theorem C8_exact_match (lib : List QueryExample) (input : String) (e : QueryExample)
    (hne : input ≠ "")
    (hmem : e ∈ lib)
    (heq : normQ e.question = (⟨pyStrip (lowStr input.data)⟩ : String)) :
    ∃ e2, findExact lib (⟨pyStrip (lowStr input.data)⟩ : String) = some e2
      ∧ normQ e2.question = (⟨pyStrip (lowStr input.data)⟩ : String)
      ∧ runMatch lib input
        = "EXACT_MATCH: Found exact match with template question: \x27" ++ e2.question
          ++ "\x27\nUse this query:\n\n" ++ e2.query := by
  have hex : ((lib.find?
      (fun e2 => (⟨pyStrip (lowStr input.data)⟩ : String) == normQ e2.question)).isSome) := by
    rw [List.find?_isSome]
    exact ⟨e, hmem, by rw [heq]; exact beq_self_eq_true _⟩
  obtain ⟨e2, he2⟩ := Option.isSome_iff_exists.mp hex
  have hp := List.find?_some he2
  refine ⟨e2, he2, (eq_of_beq hp).symm, ?_⟩
  unfold runMatch
  rw [if_neg hne]
  show (match findExact lib (⟨pyStrip (lowStr input.data)⟩ : String) with
    | some e3 =>
      "EXACT_MATCH: Found exact match with template question: \x27" ++ e3.question
        ++ "\x27\nUse this query:\n\n" ++ e3.query
    | none =>
      match similarLoop lib (⟨pyStrip (lowStr input.data)⟩ : String) with
      | some r => r
      | none =>
        "NO_MATCH: No matching query examples found. Create a new DAX query based on the tables and relationships.") = _
  rw [show findExact lib (⟨pyStrip (lowStr input.data)⟩ : String) = some e2 from he2]

set_option maxRecDepth 8000 in
/-- C8 witness: the amended theorem at an upper-cased, padded copy of the
third library question. -/
theorem C8_witness :
    ∃ e2, findExact DAX_EXAMPLES
        (⟨pyStrip (lowStr "  MARGE BRUTE de la sous BU Manufacture pour le mois de septembre 2024  ".data)⟩ : String)
        = some e2
      ∧ normQ e2.question
        = (⟨pyStrip (lowStr "  MARGE BRUTE de la sous BU Manufacture pour le mois de septembre 2024  ".data)⟩ : String)
      ∧ runMatch DAX_EXAMPLES
          "  MARGE BRUTE de la sous BU Manufacture pour le mois de septembre 2024  "
        = "EXACT_MATCH: Found exact match with template question: \x27" ++ e2.question
          ++ "\x27\nUse this query:\n\n" ++ e2.query :=
  C8_exact_match DAX_EXAMPLES
    "  MARGE BRUTE de la sous BU Manufacture pour le mois de septembre 2024  "
    (DAX_EXAMPLES.getD 2 ⟨"", ""⟩) (by decide) (by decide) (by decide)

theorem resolveFallback_le (tryColumn : String → Bool) :
    ∀ (l : List String) (n : Nat), (resolveFallback tryColumn l n).2 ≤ n + l.length := by
  intro l
  induction l with
  | nil => intro n; simp [resolveFallback]
  | cons c cs ih =>
    intro n
    rw [resolveFallback]
    by_cases hc : tryColumn c = true
    · rw [if_pos hc]
      simp only [List.length_cons]
      omega
    · rw [if_neg hc]
      have := ih (n + 1)
      simp only [List.length_cons]
      omega

/-! ### Claim C7: bounded fallback search -/

theorem similarityStep_le (sim : String → ℚ) (threshold : ℚ)
    (rewrite : String → String → String) (origColumn origValue : String)
    (distinctValues : List String) (n : Nat) :
    (similarityStep sim threshold rewrite origColumn origValue distinctValues n).2 ≤ n + 1 := by
  unfold similarityStep
  rcases hb : bestMatch sim distinctValues with _ | ⟨d, s⟩
  · simp
  · simp only
    by_cases ht : threshold ≤ s
    · rw [if_pos ht]
    · rw [if_neg ht]
      omega

/-- C7: the resolver performs at most `fallbackColumns.length + 1`
re-executions for one original query (one per fallback column, stopping at
the first success, plus at most one for the similarity pass), so the
fallback search always terminates. -/
theorem C7_resolver_bounded (tryColumn : String → Bool) (distinctValues : List String)
    (sim : String → ℚ) (threshold : ℚ) (rewrite : String → String → String)
    (origColumn origValue : String) (fallbackColumns : List String) :
    (resolveEmptyResult tryColumn distinctValues sim threshold rewrite
        origColumn origValue fallbackColumns).2
      ≤ fallbackColumns.length + 1 := by
  unfold resolveEmptyResult
  rcases hr : resolveFallback tryColumn fallbackColumns 0 with ⟨copt, n⟩
  have hn : n ≤ fallbackColumns.length := by
    have h0 := resolveFallback_le tryColumn fallbackColumns 0
    rw [hr] at h0
    simpa using h0
  cases copt with
  | some c =>
    show n ≤ fallbackColumns.length + 1
    omega
  | none =>
    show (similarityStep sim threshold rewrite origColumn origValue distinctValues n).2
      ≤ fallbackColumns.length + 1
    exact le_trans
      (similarityStep_le sim threshold rewrite origColumn origValue distinctValues n)
      (by omega)

end Talk4Finance

